import Mathlib

/-!
Verification of the wavepipe Library Synchronizer: a shallow embedding of
`fsFileSource.MediaScan` and `fsFileSource.OrphanScan` (package `core`),
together with a model of the external record store (package `data`) and of
the filesystem, and proofs of the behavioural claims about them.

The store itself is an external collaborator of the repository (spec §1, §6);
it is embedded as an interface (`StoreOps`) over an in-memory state (`DB`),
with `honestOps` as the reference implementation.  `MediaScan` is embedded
parametrically over the interface so that store failures can be injected;
`OrphanScan` is embedded over the reference store directly.
-/

set_option maxHeartbeats 4000000

namespace Wavepipe

/-- A Folder record (`data.Folder`): an indexed filesystem directory,
keyed by its path. -/
structure Folder where
  id : Nat
  path : String
  title : String
  parentID : Nat
  deriving Repr, DecidableEq

/-- An Artist record (`data.Artist`), keyed by its title. -/
structure Artist where
  id : Nat
  title : String
  deriving Repr, DecidableEq

/-- An Album record (`data.Album`), keyed by the (artist ID, title) pair.
`artist` is the denormalized artist name, `year` the release year. -/
structure Album where
  id : Nat
  artistID : Nat
  title : String
  artist : String
  year : Int
  deriving Repr, DecidableEq

/-- A Song record (`data.Song`), keyed by its file path (`fileName`). -/
structure Song where
  id : Nat
  folderID : Nat
  artistID : Nat
  albumID : Nat
  artID : Nat
  fileName : String
  fileSize : Nat
  lastModified : Int
  fileTypeID : Nat
  title : String
  track : Nat
  bitrate : Nat
  deriving Repr, DecidableEq

/-- An Art record (`data.Art`), keyed by its file path (`fileName`). -/
structure Art where
  id : Nat
  fileName : String
  fileSize : Nat
  lastModified : Int
  deriving Repr, DecidableEq

/-- Modelled from the spec: the persistent store (package `data`, not in the
sources) holding the five record tables.  The `nextXID` counters model the
store assigning identity on save; `writes` and `deletes` are ghost
operation counters (a save or update bumps `writes`, a delete bumps
`deletes`) used to state that an operation performed no write/delete. -/
structure DB where
  folders : List Folder
  artists : List Artist
  albums : List Album
  songs : List Song
  arts : List Art
  nextFolderID : Nat
  nextArtistID : Nat
  nextAlbumID : Nat
  nextSongID : Nat
  nextArtID : Nat
  writes : Nat
  deletes : Nat
  deriving Repr, DecidableEq

/-- A store error: `noRows` is `sql.ErrNoRows` (the not-found signal), any
other error carries its message. -/
inductive StoreErr where
  | noRows
  | other (msg : String)
  deriving Repr, DecidableEq

/-- Lookup the Folder record for a path (identity of `data.Folder`). -/
def findFolder (db : DB) (p : String) : Option Folder :=
  db.folders.find? (fun f => f.path == p)

/-- Lookup the Artist record for a title (identity of `data.Artist`). -/
def findArtist (db : DB) (t : String) : Option Artist :=
  db.artists.find? (fun a => a.title == t)

/-- Lookup the Album record for an (artist ID, title) pair. -/
def findAlbum (db : DB) (aid : Nat) (t : String) : Option Album :=
  db.albums.find? (fun al => al.artistID == aid && al.title == t)

/-- Lookup the Song record for a file path (identity of `data.Song`). -/
def findSong (db : DB) (p : String) : Option Song :=
  db.songs.find? (fun s => s.fileName == p)

/-- Lookup the Art record for a file path (identity of `data.Art`). -/
def findArt (db : DB) (p : String) : Option Art :=
  db.arts.find? (fun a => a.fileName == p)

/-- The store interface consumed by `MediaScan` (spec §6): typed
load/save/update calls plus the songs-for-folder bulk query.  `Load` takes a
record with its identity fields set and returns the filled record or fails;
`Save` assigns identity and persists. -/
structure StoreOps where
  folderLoad : DB → Folder → Except StoreErr Folder
  folderSave : DB → Folder → Except StoreErr (Folder × DB)
  artistLoad : DB → Artist → Except StoreErr Artist
  artistSave : DB → Artist → Except StoreErr (Artist × DB)
  albumLoad : DB → Album → Except StoreErr Album
  albumSave : DB → Album → Except StoreErr (Album × DB)
  songLoad : DB → Song → Except StoreErr Song
  songSave : DB → Song → Except StoreErr (Song × DB)
  songUpdate : DB → Song → Except StoreErr DB
  artLoad : DB → Art → Except StoreErr Art
  artSave : DB → Art → Except StoreErr (Art × DB)
  songsForFolder : DB → Nat → Except StoreErr (List Song)

/-- Modelled from the spec: the reference store.  Loads find the record by
its identity fields or fail with `noRows`; saves assign the next ID and
append; updates replace the record with the matching ID. -/
def honestOps : StoreOps where
  folderLoad db f :=
    match findFolder db f.path with
    | some g => .ok g
    | none => .error .noRows
  folderSave db f :=
    let f' := { f with id := db.nextFolderID }
    .ok (f', { db with folders := db.folders ++ [f'],
                       nextFolderID := db.nextFolderID + 1,
                       writes := db.writes + 1 })
  artistLoad db a :=
    match findArtist db a.title with
    | some b => .ok b
    | none => .error .noRows
  artistSave db a :=
    let a' := { a with id := db.nextArtistID }
    .ok (a', { db with artists := db.artists ++ [a'],
                       nextArtistID := db.nextArtistID + 1,
                       writes := db.writes + 1 })
  albumLoad db al :=
    match findAlbum db al.artistID al.title with
    | some b => .ok b
    | none => .error .noRows
  albumSave db al :=
    let al' := { al with id := db.nextAlbumID }
    .ok (al', { db with albums := db.albums ++ [al'],
                        nextAlbumID := db.nextAlbumID + 1,
                        writes := db.writes + 1 })
  songLoad db s :=
    match findSong db s.fileName with
    | some t => .ok t
    | none => .error .noRows
  songSave db s :=
    let s' := { s with id := db.nextSongID }
    .ok (s', { db with songs := db.songs ++ [s'],
                       nextSongID := db.nextSongID + 1,
                       writes := db.writes + 1 })
  songUpdate db s :=
    .ok { db with songs := db.songs.map (fun t => if t.id == s.id then s else t),
                  writes := db.writes + 1 }
  artLoad db a :=
    match findArt db a.fileName with
    | some b => .ok b
    | none => .error .noRows
  artSave db a :=
    let a' := { a with id := db.nextArtID }
    .ok (a', { db with arts := db.arts ++ [a'],
                       nextArtID := db.nextArtID + 1,
                       writes := db.writes + 1 })
  songsForFolder db fid :=
    .ok (db.songs.filter (fun s => s.folderID == fid))

/-- A filesystem error from `ioutil.ReadDir`/`os.Stat`: `notExist` is the
`os.IsNotExist` class, any other error carries its message. -/
inductive FsErr where
  | notExist
  | other (msg : String)
  deriving Repr, DecidableEq

/-- The tag metadata extracted from an audio file (taglib plus
`data.SongFromFile`, both external to the sources). -/
structure SongMeta where
  title : String
  artist : String
  album : String
  year : Int
  track : Nat
  bitrate : Nat
  deriving Repr, DecidableEq

/-- One entry visited by `filepath.Walk`, in pre-order: its path, extension
(`path.Ext`), directory flag, the `info == nil` condition of the walk
callback, size and modification time from `os.FileInfo`, and the result of
tag extraction (`none` models a `taglib.Read` failure). -/
structure FSEntry where
  path : String
  ext : String
  isDir : Bool
  infoNone : Bool
  size : Nat
  modTime : Int
  tag : Option SongMeta
  deriving Repr, DecidableEq

/-- The filesystem as seen by the two scans: the pre-order walk sequence of
the media folder, directory listing (`ioutil.ReadDir`, names only since only
emptiness is consulted), and file existence (`os.Stat` combined with
`os.IsNotExist`: `false` means the stat failed with not-exist). -/
structure FS where
  entries : List FSEntry
  readDir : String → Except FsErr (List String)
  statExists : String → Bool

/-- The scan configuration: the known media and art extension sets
(`mediaSet`, `artSet`), the wavepipe file-type table (`data.FileTypeMap`),
and the cancellation flag.  `halt n` is the value of the shared halt flag
read under the lock at the n-th traversal step, so an arbitrary schedule of
the cancellation goroutine is admitted. -/
structure Cfg where
  mediaSet : String → Bool
  artSet : String → Bool
  fileTypeMap : String → Option Nat
  halt : Nat → Bool

/-- An error terminating the `MediaScan` walk, mirroring each `return err`
site of the walk callback. -/
inductive WalkErr where
  | halted
  | invalidPath (p : String)
  | fsRead (e : FsErr)
  | store (e : StoreErr)
  | tagErr (p : String)
  | invalidFileType (ext : String)
  deriving Repr, DecidableEq

/-- A folder ID together with the ID of an art file newly saved in it
(`folderArtPair`). -/
structure FolderArtPair where
  folderID : Nat
  artID : Nat
  deriving Repr, DecidableEq

/-- The closure state of one `MediaScan` invocation: the store, the three
per-invocation caches, the six change counters and the recorded
(folder, art) pairs. -/
structure ScanState where
  db : DB
  folderCache : List (String × Folder)
  artistCache : List (String × Artist)
  albumCache : List (String × Album)
  artCount : Nat
  artistCount : Nat
  albumCount : Nat
  songCount : Nat
  songUpdateCount : Nat
  folderCount : Nat
  artFiles : List FolderArtPair
  deriving Repr, DecidableEq

/-- Split a character list on a separator character. -/
def splitChar (c : Char) : List Char → List (List Char)
  | [] => [[]]
  | x :: xs =>
    match splitChar c xs with
    | [] => if x = c then [[], []] else [[x]]
    | h :: t => if x = c then [] :: h :: t else (x :: h) :: t

/-- Join character lists with the path separator. -/
def joinSlash : List (List Char) → List Char
  | [] => []
  | [x] => x
  | x :: xs => x ++ '/' :: joinSlash xs

/-- Modelled from the Go standard library `path.Dir` (external): drop the
last path element. -/
def pathDir (p : String) : String :=
  match (splitChar '/' p.data).dropLast with
  | [] => "."
  | [[]] => "/"
  | ps => ⟨joinSlash ps⟩

/-- Modelled from the Go standard library `path.Base` (external): the last
path element. -/
def pathBase (p : String) : String :=
  if p = "" then "."
  else
    match (splitChar '/' p.data).getLast? with
    | some [] => "/"
    | some b => ⟨b⟩
    | none => "."

/-- The folder path owning a walk entry: the entry's own path for a
directory, its parent directory for a file (lines 85-91). -/
def folderPathOf (e : FSEntry) : String :=
  if e.isDir then e.path else pathDir e.path

/-- The candidate parent folder path of a walk entry (lines 116-120). -/
def parentPathOf (e : FSEntry) : String :=
  if e.isDir then pathDir e.path else pathDir (pathDir e.path)

/-- Outcome of resolving the Folder record for a walk entry. -/
inductive FolderStep where
  | fail (er : WalkErr)
  | skip
  | use (f : Folder) (st : ScanState)
  deriving Repr

/-- Resolve a Folder record for a walk entry (lines 83-139): consult the
cache; on miss attempt to load; on `ErrNoRows` list the directory (aborting
on a listing error), skip the entry when the listing is empty, otherwise
resolve the parent (a non-not-found parent load error aborts), save the new
folder (a save error aborts) and count it.  A non-not-found load error
falls through the `else if` on line 96, leaving the unloaded zero-ID record
in use. -/
def resolveFolder (ops : StoreOps) (fs : FS) (e : FSEntry) (st : ScanState) : FolderStep :=
  let fpath := folderPathOf e
  match st.folderCache.lookup fpath with
  | some f => .use f st
  | none =>
    let folder0 : Folder := { id := 0, path := fpath, title := "", parentID := 0 }
    match ops.folderLoad st.db folder0 with
    | .ok f => .use f st
    | .error (.other _) => .use folder0 st
    | .error .noRows =>
      match fs.readDir fpath with
      | .error er => .fail (.fsRead er)
      | .ok files =>
        if files.length = 0 then .skip
        else
          let ppath := parentPathOf e
          let finishSave : Nat → FolderStep := fun pid =>
            let folder2 : Folder :=
              { id := 0, path := fpath, title := pathBase fpath, parentID := pid }
            match ops.folderSave st.db folder2 with
            | .error er => .fail (.store er)
            | .ok (f, db') =>
              .use f { st with db := db', folderCount := st.folderCount + 1 }
          match ops.folderLoad st.db { folder0 with path := ppath } with
          | .error (.other m) => .fail (.store (.other m))
          | .error .noRows => finishSave 0
          | .ok pf => finishSave pf.id

/-- Handle an art-extension entry (lines 151-182): attempt to load existing
art; on not-found capture size and modification time, skip zero-size files,
save the new art (a save error is only logged), count it and record the
(folder ID, art ID) pair.  Existing art and non-not-found load errors are
skipped. -/
def handleArt (ops : StoreOps) (e : FSEntry) (folder : Folder) (st : ScanState) : ScanState :=
  match ops.artLoad st.db { id := 0, fileName := e.path, fileSize := 0, lastModified := 0 } with
  | .error .noRows =>
    let art : Art := { id := 0, fileName := e.path, fileSize := e.size, lastModified := e.modTime }
    if art.fileSize = 0 then st
    else
      match ops.artSave st.db art with
      | .error _ => st
      | .ok (art', db') =>
        { st with db := db', artCount := st.artCount + 1,
                  artFiles := st.artFiles ++ [{ folderID := folder.id, artID := art'.id }] }
  | .error (.other _) => st
  | .ok _ => st

/-- `data.ArtistFromSong`: the candidate Artist derived from a song's
metadata. -/
def artistFromMeta (m : SongMeta) : Artist :=
  { id := 0, title := m.artist }

/-- `data.AlbumFromSong`: the candidate Album derived from a song's
metadata. -/
def albumFromMeta (m : SongMeta) : Album :=
  { id := 0, artistID := 0, title := m.album, artist := m.artist, year := m.year }

/-- The zero value of `data.Song` (`new(data.Song)`). -/
def emptySong : Song :=
  { id := 0, folderID := 0, artistID := 0, albumID := 0, artID := 0,
    fileName := "", fileSize := 0, lastModified := 0, fileTypeID := 0,
    title := "", track := 0, bitrate := 0 }

/-- Modelled from the spec: `data.SongFromFile` generates a song model from
the extracted tag metadata (tag fields only; filesystem fields are set by
the caller). -/
def songFromMeta (m : SongMeta) : Song :=
  { emptySong with title := m.title, track := m.track, bitrate := m.bitrate }

/-- Resolve the Artist for a song (lines 224-239): cache hit, else load;
on not-found save and count (a save error is only logged); a non-not-found
load error falls through, leaving the unloaded record in use. -/
def resolveArtist (ops : StoreOps) (m : SongMeta) (st : ScanState) : Artist × ScanState :=
  let artist0 := artistFromMeta m
  match st.artistCache.lookup m.artist with
  | some a => (a, st)
  | none =>
    match ops.artistLoad st.db artist0 with
    | .ok a => (a, st)
    | .error .noRows =>
      match ops.artistSave st.db artist0 with
      | .error _ => (artist0, st)
      | .ok (a, db') => (a, { st with db := db', artistCount := st.artistCount + 1 })
    | .error (.other _) => (artist0, st)

/-- The album cache key (line 249): artist ID and album title joined by an
underscore. -/
def albumKey (aid : Nat) (title : String) : String :=
  toString aid ++ "_" ++ title

/-- Resolve the Album for a song (lines 245-264): cache hit, else load by
(artist ID, title); on not-found save and count (a save error is only
logged); a non-not-found load error falls through. -/
def resolveAlbum (ops : StoreOps) (album0 : Album) (st : ScanState) : Album × ScanState :=
  match st.albumCache.lookup (albumKey album0.artistID album0.title) with
  | some al => (al, st)
  | none =>
    match ops.albumLoad st.db album0 with
    | .ok al => (al, st)
    | .error .noRows =>
      match ops.albumSave st.db album0 with
      | .error _ => (album0, st)
      | .ok (al, db') => (al, { st with db := db', albumCount := st.albumCount + 1 })
    | .error (.other _) => (album0, st)

/-- Save or update the Song record (lines 273-296): load a duplicate by
path; on not-found save the song and count it (a save error, including
not-found, is only logged and not counted); when a record exists and the
observed modification time is strictly newer, update in place with the
existing ID and count the update (an update error is only logged, the count
still happens); otherwise leave untouched.  A non-not-found load error
falls through to the else-branch with the zero-valued duplicate. -/
def saveOrUpdateSong (ops : StoreOps) (song : Song) (st : ScanState) : ScanState :=
  match ops.songLoad st.db { emptySong with fileName := song.fileName } with
  | .error .noRows =>
    match ops.songSave st.db song with
    | .error _ => st
    | .ok (_, db') => { st with db := db', songCount := st.songCount + 1 }
  | .ok song2 =>
    if song2.lastModified < song.lastModified then
      match ops.songUpdate st.db { song with id := song2.id } with
      | .error _ => { st with songUpdateCount := st.songUpdateCount + 1 }
      | .ok db' => { st with db := db', songUpdateCount := st.songUpdateCount + 1 }
    else st
  | .error (.other _) =>
    if (0 : Int) < song.lastModified then
      match ops.songUpdate st.db { song with id := 0 } with
      | .error _ => { st with songUpdateCount := st.songUpdateCount + 1 }
      | .ok db' => { st with db := db', songUpdateCount := st.songUpdateCount + 1 }
    else st

/-- Handle an audio-extension entry (lines 184-299): tag extraction failure
aborts the walk; populate the filesystem fields, skip zero-size files,
validate the file type (an unknown extension aborts), resolve artist and
album (caching each), then save or update the song. -/
def handleSong (ops : StoreOps) (cfg : Cfg) (e : FSEntry) (folder : Folder)
    (st : ScanState) : ScanState × Option WalkErr :=
  match e.tag with
  | none => (st, some (.tagErr e.path))
  | some m =>
    let song0 := songFromMeta m
    let song := { song0 with
      fileName := e.path, fileSize := e.size, lastModified := e.modTime }
    if song.fileSize = 0 then (st, none)
    else
      let song := { song with folderID := folder.id }
      match cfg.fileTypeMap e.ext with
      | none => (st, some (.invalidFileType e.ext))
      | some ft =>
        let song := { song with fileTypeID := ft }
        let (artist, st) := resolveArtist ops m st
        let st := { st with artistCache := (artist.title, artist) :: st.artistCache }
        let albumBase := albumFromMeta m
        let album0 := { albumBase with artistID := artist.id }
        let (album, st) := resolveAlbum ops album0 st
        let st := { st with
          albumCache := (albumKey album0.artistID album0.title, album) :: st.albumCache }
        let song := { song with artistID := artist.id, albumID := album.id }
        (saveOrUpdateSong ops song st, none)

/-- The walk callback for one entry (lines 70-300): check the halt flag,
check `info`, resolve the folder (caching the result), skip entries that
are neither media nor art, and dispatch to art or song handling. -/
def walkVisit (ops : StoreOps) (cfg : Cfg) (fs : FS) (n : Nat) (e : FSEntry)
    (st : ScanState) : ScanState × Option WalkErr :=
  if cfg.halt n then (st, some .halted)
  else if e.infoNone then (st, some (.invalidPath e.path))
  else
    match resolveFolder ops fs e st with
    | .fail er => (st, some er)
    | .skip => (st, none)
    | .use folder st1 =>
      let st2 := { st1 with folderCache := (folder.path, folder) :: st1.folderCache }
      if !cfg.mediaSet e.ext && !cfg.artSet e.ext then (st2, none)
      else if cfg.artSet e.ext then (handleArt ops e folder st2, none)
      else handleSong ops cfg e folder st2

/-- `filepath.Walk` over the pre-order entry list: visit each entry in turn,
aborting the traversal at the first error. -/
def walkFold (ops : StoreOps) (cfg : Cfg) (fs : FS) :
    List FSEntry → Nat → ScanState → ScanState × Option WalkErr
  | [], _, st => (st, none)
  | e :: rest, n, st =>
    match walkVisit ops cfg fs n e st with
    | (st', none) => walkFold ops cfg fs rest (n + 1) st'
    | (st', some er) => (st', some er)

/-- The update loop of the deferred art pass (lines 316-321): set each
song's art ID and update it, aborting on an update error. -/
def updateSongsArt (ops : StoreOps) : List Song → Nat → DB → DB × Option StoreErr
  | [], _, db => (db, none)
  | s :: rest, aid, db =>
    match ops.songUpdate db { s with artID := aid } with
    | .error er => (db, some er)
    | .ok db' => updateSongsArt ops rest aid db'

/-- The deferred art-association pass (lines 307-322): for each recorded
(folder ID, art ID) pair, fetch the folder's songs and update each to
reference the art ID, aborting on any store error. -/
def applyArtPairs (ops : StoreOps) : List FolderArtPair → DB → DB × Option StoreErr
  | [], db => (db, none)
  | p :: ps, db =>
    match ops.songsForFolder db p.folderID with
    | .error er => (db, some er)
    | .ok songs =>
      match updateSongsArt ops songs p.artID db with
      | (db', some er) => (db', some er)
      | (db', none) => applyArtPairs ops ps db'

/-- The result of a `MediaScan` invocation: the returned change count and
error, the final store, and the walk closure state (counters, caches and
recorded art pairs) at the end of the traversal. -/
structure MediaScanResult where
  count : Nat
  err : Option WalkErr
  db : DB
  walk : ScanState
  deriving Repr

/-- The closure state at the start of a `MediaScan` invocation: all caches
empty, all counters zero (lines 45-60). -/
def initialScanState (db : DB) : ScanState :=
  { db := db, folderCache := [], artistCache := [], albumCache := [],
    artCount := 0, artistCount := 0, albumCount := 0, songCount := 0,
    songUpdateCount := 0, folderCount := 0, artFiles := [] }

/-- `fsFileSource.MediaScan` (lines 31-337): run the walk from the fresh
closure state; on a walk error return count 0 with that error; otherwise run
the deferred art pass (returning count 0 with its error on failure) and
return the sum of the six change counters. -/
def mediaScan (ops : StoreOps) (cfg : Cfg) (fs : FS) (db : DB) : MediaScanResult :=
  match walkFold ops cfg fs fs.entries 0 (initialScanState db) with
  | (st, some er) => { count := 0, err := some er, db := st.db, walk := st }
  | (st, none) =>
    match applyArtPairs ops st.artFiles st.db with
    | (db', some er) => { count := 0, err := some (.store er), db := db', walk := st }
    | (db', none) =>
      { count := st.artCount + st.artistCount + st.albumCount + st.songCount
          + st.folderCount + st.songUpdateCount,
        err := none, db := db', walk := st }

/-- Modelled from the spec: whether a path falls under (is a descendant of)
a base path, the criterion of the store's `...InPath`/`...NotInPath`
queries. -/
def pathUnder (base p : String) : Bool :=
  base.data.isPrefixOf p.data

/-- Modelled from the spec: `data.DB.ArtNotInPath` — every Art record whose
path does not fall under the base path. -/
def artNotInPath (db : DB) (base : String) : List Art :=
  db.arts.filter (fun a => !pathUnder base a.fileName)

/-- Modelled from the spec: `data.DB.SongsNotInPath`. -/
def songsNotInPath (db : DB) (base : String) : List Song :=
  db.songs.filter (fun s => !pathUnder base s.fileName)

/-- Modelled from the spec: `data.DB.FoldersNotInPath`. -/
def foldersNotInPath (db : DB) (base : String) : List Folder :=
  db.folders.filter (fun f => !pathUnder base f.path)

/-- Modelled from the spec: `data.DB.ArtInPath` — every Art record whose
path falls under the given path. -/
def artInPath (db : DB) (base : String) : List Art :=
  db.arts.filter (fun a => pathUnder base a.fileName)

/-- Modelled from the spec: `data.DB.SongsInPath`. -/
def songsInPath (db : DB) (base : String) : List Song :=
  db.songs.filter (fun s => pathUnder base s.fileName)

/-- Modelled from the spec: `data.DB.FoldersInPath`. -/
def foldersInPath (db : DB) (base : String) : List Folder :=
  db.folders.filter (fun f => pathUnder base f.path)

/-- Delete an Art record from the reference store (`a.Delete()`). -/
def dbDeleteArt (db : DB) (a : Art) : DB :=
  { db with arts := db.arts.filter (fun x => x.id != a.id), deletes := db.deletes + 1 }

/-- Delete a Song record from the reference store (`s.Delete()`). -/
def dbDeleteSong (db : DB) (s : Song) : DB :=
  { db with songs := db.songs.filter (fun x => x.id != s.id), deletes := db.deletes + 1 }

/-- Delete a Folder record from the reference store (`f.Delete()`). -/
def dbDeleteFolder (db : DB) (f : Folder) : DB :=
  { db with folders := db.folders.filter (fun x => x.id != f.id), deletes := db.deletes + 1 }

/-- Modelled from the spec: `data.DB.PurgeOrphanAlbums` — delete every Album
with zero remaining songs, returning the count. -/
def purgeOrphanAlbums (db : DB) : Nat × DB :=
  let kept := db.albums.filter (fun al => db.songs.any (fun s => s.albumID == al.id))
  let n := db.albums.length - kept.length
  (n, { db with albums := kept, deletes := db.deletes + n })

/-- Modelled from the spec: `data.DB.PurgeOrphanArtists` — delete every
Artist with zero remaining albums, returning the count. -/
def purgeOrphanArtists (db : DB) : Nat × DB :=
  let kept := db.artists.filter (fun ar => db.albums.any (fun al => al.artistID == ar.id))
  let n := db.artists.length - kept.length
  (n, { db with artists := kept, deletes := db.deletes + n })

/-- The base-eviction deletion loop over art (lines 374-382): delete each
queried record, counting it (the reference store's delete cannot fail). -/
def evictArts : List Art → DB → Nat → DB × Nat
  | [], db, c => (db, c)
  | a :: rest, db, c => evictArts rest (dbDeleteArt db a) (c + 1)

/-- The base-eviction deletion loop over songs (lines 392-400). -/
def evictSongs : List Song → DB → Nat → DB × Nat
  | [], db, c => (db, c)
  | s :: rest, db, c => evictSongs rest (dbDeleteSong db s) (c + 1)

/-- The base-eviction deletion loop over folders (lines 410-418). -/
def evictFolders : List Folder → DB → Nat → DB × Nat
  | [], db, c => (db, c)
  | f :: rest, db, c => evictFolders rest (dbDeleteFolder db f) (c + 1)

/-- The base-eviction phase of `OrphanScan` (lines 361-419): unconditionally
delete every Art, Song and Folder record not under the base folder,
counting each category. -/
def baseEvict (base : String) (db : DB) : DB × Nat × Nat × Nat :=
  let (db1, ac) := evictArts (artNotInPath db base) db 0
  let (db2, sc) := evictSongs (songsNotInPath db1 base) db1 0
  let (db3, fc) := evictFolders (foldersNotInPath db2 base) db2 0
  (db3, ac, sc, fc)

/-- The art existence-verification loop (lines 440-451): delete each art
record whose file no longer exists, counting it. -/
def checkArts (fs : FS) : List Art → DB → Nat → DB × Nat
  | [], db, c => (db, c)
  | a :: rest, db, c =>
    if fs.statExists a.fileName then checkArts fs rest db c
    else checkArts fs rest (dbDeleteArt db a) (c + 1)

/-- The song existence-verification loop (lines 461-472). -/
def checkSongs (fs : FS) : List Song → DB → Nat → DB × Nat
  | [], db, c => (db, c)
  | s :: rest, db, c =>
    if fs.statExists s.fileName then checkSongs fs rest db c
    else checkSongs fs rest (dbDeleteSong db s) (c + 1)

/-- The folder emptiness-verification loop (lines 481-498): list each
folder's directory; a listing error other than not-exist aborts; a missing
or empty directory causes the folder record to be deleted and counted. -/
def checkFolders (fs : FS) : List Folder → DB → Nat → DB × Nat × Option FsErr
  | [], db, c => (db, c, none)
  | f :: rest, db, c =>
    match fs.readDir f.path with
    | .error (.other m) => (db, c, some (.other m))
    | .error .notExist => checkFolders fs rest (dbDeleteFolder db f) (c + 1)
    | .ok files =>
      if files.length = 0 then checkFolders fs rest (dbDeleteFolder db f) (c + 1)
      else checkFolders fs rest db c

/-- The result of an `OrphanScan` invocation: the returned deletion count
and error, and the final store. -/
structure OrphanResult where
  count : Nat
  err : Option FsErr
  db : DB
  deriving Repr, DecidableEq

/-- `fsFileSource.OrphanScan` (lines 340-525): base eviction when a base
folder is set, then existence verification of art, songs and folders under
the subfolder (defaulting to the base folder), then the cascading purge of
orphan albums and orphan artists, returning the sum of all deletion counts.
The cancellation goroutine (lines 342-352) sets `haltFlag`, but the body
never reads it, so the parameter is unused. -/
def orphanScan (fs : FS) (baseFolder subFolder : String) (haltFlag : Nat → Bool)
    (db : DB) : OrphanResult :=
  let (db0, artC0, songC0, folderC0) :=
    if baseFolder ≠ "" then baseEvict baseFolder db else (db, 0, 0, 0)
  let sub := if subFolder = "" then baseFolder else subFolder
  let (db1, artC) := checkArts fs (artInPath db0 sub) db0 artC0
  let (db2, songC) := checkSongs fs (songsInPath db1 sub) db1 songC0
  match checkFolders fs (foldersInPath db2 sub) db2 folderC0 with
  | (db3, _, some er) => { count := 0, err := some er, db := db3 }
  | (db3, folderC, none) =>
    let (albumC, db4) := purgeOrphanAlbums db3
    let (artistC, db5) := purgeOrphanArtists db4
    { count := artC + artistC + albumC + songC + folderC, err := none, db := db5 }

/-! ### Predicates used to state the claims -/

/-- The folder-resolution step of a walk entry cannot abort: the folder is
cached, or its record is in the store, or its directory listing succeeds. -/
def folderStepOk (fs : FS) (st : ScanState) (e : FSEntry) : Bool :=
  (st.folderCache.lookup (folderPathOf e)).isSome ||
  (findFolder st.db (folderPathOf e)).isSome ||
  (match fs.readDir (folderPathOf e) with
   | .ok _ => true
   | .error _ => false)

/-- The folder-resolution step of a walk entry yields a folder (it neither
aborts nor skips the entry): cached, present in the store, or a new folder
with a non-empty directory listing. -/
def folderStepUse (fs : FS) (st : ScanState) (e : FSEntry) : Bool :=
  (st.folderCache.lookup (folderPathOf e)).isSome ||
  (findFolder st.db (folderPathOf e)).isSome ||
  (match fs.readDir (folderPathOf e) with
   | .ok l => !l.isEmpty
   | .error _ => false)

/-- The store reflects a walk entry (the hypothesis of the unchanged-rescan
claim): the entry is valid; its folder is indexed or is an empty directory;
an art entry is indexed or has size zero; an audio entry has readable tags
and either has size zero or has a valid file type and indexed artist, album
and song whose stored modification time is at least the observed one. -/
def reflectsEntry (cfg : Cfg) (fs : FS) (db : DB) (e : FSEntry) : Bool :=
  !e.infoNone &&
  ((findFolder db (folderPathOf e)).isSome ||
   (match fs.readDir (folderPathOf e) with
    | .ok l => l.isEmpty
    | .error _ => false)) &&
  (!cfg.artSet e.ext || (findArt db e.path).isSome || e.size == 0) &&
  (cfg.artSet e.ext || !cfg.mediaSet e.ext ||
   (match e.tag with
    | none => false
    | some m =>
      e.size == 0 ||
      ((cfg.fileTypeMap e.ext).isSome &&
       (match findArtist db m.artist with
        | none => false
        | some a =>
          (findAlbum db a.id m.album).isSome &&
          (match findSong db e.path with
           | none => false
           | some s => decide (e.modTime ≤ s.lastModified))))))

/-- The artist cache is consistent with the store: every cached artist is
the store's record for its key. -/
def artistCacheOK (c : List (String × Artist)) (db : DB) : Prop :=
  ∀ k a, c.lookup k = some a → findArtist db k = some a

/-- The art ID of the last recorded (folder, art) pair for a folder, if
any: the pair whose association the deferred pass leaves in effect. -/
def lastArtFor (f : Nat) : List FolderArtPair → Option Nat
  | [] => none
  | p :: ps =>
    match lastArtFor f ps with
    | some a => some a
    | none => if p.folderID == f then some p.artID else none

/-- The effect of one (folder, art) pair of the deferred pass on one song. -/
def applyPairSong (p : FolderArtPair) (s : Song) : Song :=
  if s.folderID == p.folderID then { s with artID := p.artID } else s

/-- The cumulative effect of the deferred art pass on one song. -/
def artAfter (pairs : List FolderArtPair) (s : Song) : Song :=
  pairs.foldl (fun t p => applyPairSong p t) s

/-! ### Concrete fixtures used by counterexamples and witnesses -/

/-- The empty store. -/
def emptyDB : DB :=
  { folders := [], artists := [], albums := [], songs := [], arts := [],
    nextFolderID := 1, nextArtistID := 1, nextAlbumID := 1, nextSongID := 1,
    nextArtID := 1, writes := 0, deletes := 0 }

/-- A concrete tag metadata value. -/
def meta1 : SongMeta :=
  { title := "T", artist := "AR", album := "AL", year := 2001, track := 1,
    bitrate := 128 }

/-- A concrete configuration: `.mp3` is the only audio extension, `.jpg`
the only art extension, and cancellation is never signalled. -/
def cfgStd : Cfg :=
  { mediaSet := fun s => s == ".mp3",
    artSet := fun s => s == ".jpg",
    fileTypeMap := fun s => if s == ".mp3" then some 1 else none,
    halt := fun _ => false }

/-- A concrete library: directory `/m` containing one song and one cover. -/
def fsA : FS :=
  { entries := [
      { path := "/m", ext := "", isDir := true, infoNone := false,
        size := 0, modTime := 0, tag := none },
      { path := "/m/a.mp3", ext := ".mp3", isDir := false, infoNone := false,
        size := 10, modTime := 5, tag := some meta1 },
      { path := "/m/c.jpg", ext := ".jpg", isDir := false, infoNone := false,
        size := 7, modTime := 5, tag := none }],
    readDir := fun p => if p == "/m" then .ok ["a.mp3", "c.jpg"] else .ok [],
    statExists := fun _ => true }

/-- The store produced by scanning `fsA` from the empty store. -/
def dbA : DB := (mediaScan honestOps cfgStd fsA emptyDB).db

/-- A store interface whose art save always fails; all other operations are
the reference ones. -/
def badArtOps : StoreOps :=
  { honestOps with artSave := fun _ _ => .error (.other "art save failed") }

/-- A store interface whose folder save always fails. -/
def badFolderOps : StoreOps :=
  { honestOps with folderSave := fun _ _ => .error (.other "folder save failed") }

/-- A concrete library containing a single new cover-art file. -/
def fsArtOnly : FS :=
  { entries := [
      { path := "/m/c.jpg", ext := ".jpg", isDir := false, infoNone := false,
        size := 7, modTime := 5, tag := none }],
    readDir := fun p => if p == "/m" then .ok ["c.jpg"] else .ok [],
    statExists := fun _ => true }

/-- A concrete library whose root `/a` contains only the empty directory
`/a/b`: `/a` contains zero files directly and transitively. -/
def fsNested : FS :=
  { entries := [
      { path := "/a", ext := "", isDir := true, infoNone := false,
        size := 0, modTime := 0, tag := none },
      { path := "/a/b", ext := "", isDir := true, infoNone := false,
        size := 0, modTime := 0, tag := none }],
    readDir := fun p => if p == "/a" then .ok ["b"] else .ok [],
    statExists := fun _ => true }

/-- A concrete library containing a single zero-size audio file whose tag
extraction fails. -/
def fsZeroBad : FS :=
  { entries := [
      { path := "/m/z.mp3", ext := ".mp3", isDir := false, infoNone := false,
        size := 0, modTime := 5, tag := none }],
    readDir := fun p => if p == "/m" then .ok ["z.mp3"] else .ok [],
    statExists := fun _ => true }

/-- A filesystem on which every file and directory is gone. -/
def fsGone : FS :=
  { entries := [], readDir := fun _ => .error .notExist,
    statExists := fun _ => false }

/-- The walk entry for the empty directory `/a/b` of `fsNested`. -/
def entDirB : FSEntry :=
  { path := "/a/b", ext := "", isDir := true, infoNone := false,
    size := 0, modTime := 0, tag := none }

/-- The walk entry for the cover file of `fsArtOnly`. -/
def entArtC : FSEntry :=
  { path := "/m/c.jpg", ext := ".jpg", isDir := false, infoNone := false,
    size := 7, modTime := 5, tag := none }

/-- A zero-size art-extension walk entry under `/m`. -/
def entZeroArt : FSEntry :=
  { path := "/m/z.jpg", ext := ".jpg", isDir := false, infoNone := false,
    size := 0, modTime := 5, tag := none }

/-- The walk entry for `/m/a.mp3` observed again with a newer modification
time. -/
def entSongNew : FSEntry :=
  { path := "/m/a.mp3", ext := ".mp3", isDir := false, infoNone := false,
    size := 11, modTime := 9, tag := some meta1 }

/-- The Song record indexed for `/m/a.mp3` by the first scan of `fsA`. -/
def songA : Song :=
  { id := 1, folderID := 1, artistID := 1, albumID := 1, artID := 1,
    fileName := "/m/a.mp3", fileSize := 10, lastModified := 5,
    fileTypeID := 1, title := "T", track := 1, bitrate := 128 }

/-- The (folder, art) pair recorded by the first scan of `fsA`. -/
def pairA : FolderArtPair := { folderID := 1, artID := 1 }

/-! ### Theorems -/

/-! #### Equations for the folder-resolution step over the reference store -/

theorem resolveFolder_cache (fs : FS) (e : FSEntry) (st : ScanState) (f : Folder)
    (hc : st.folderCache.lookup (folderPathOf e) = some f) :
    resolveFolder honestOps fs e st = .use f st := by
  simp [resolveFolder, hc]

theorem resolveFolder_load (fs : FS) (e : FSEntry) (st : ScanState) (f : Folder)
    (hc : st.folderCache.lookup (folderPathOf e) = none)
    (hf : findFolder st.db (folderPathOf e) = some f) :
    resolveFolder honestOps fs e st = .use f st := by
  simp [resolveFolder, honestOps, hc, hf]

theorem resolveFolder_skip (fs : FS) (e : FSEntry) (st : ScanState)
    (hc : st.folderCache.lookup (folderPathOf e) = none)
    (hf : findFolder st.db (folderPathOf e) = none)
    (hrd : fs.readDir (folderPathOf e) = .ok []) :
    resolveFolder honestOps fs e st = .skip := by
  simp [resolveFolder, honestOps, hc, hf, hrd]

theorem resolveFolder_fsErr (fs : FS) (e : FSEntry) (st : ScanState) (er : FsErr)
    (hc : st.folderCache.lookup (folderPathOf e) = none)
    (hf : findFolder st.db (folderPathOf e) = none)
    (hrd : fs.readDir (folderPathOf e) = .error er) :
    resolveFolder honestOps fs e st = .fail (.fsRead er) := by
  simp [resolveFolder, honestOps, hc, hf, hrd]

theorem resolveFolder_new (fs : FS) (e : FSEntry) (st : ScanState) (l : List String)
    (hc : st.folderCache.lookup (folderPathOf e) = none)
    (hf : findFolder st.db (folderPathOf e) = none)
    (hrd : fs.readDir (folderPathOf e) = .ok l) (hl : l ≠ []) :
    resolveFolder honestOps fs e st =
      .use
        { id := st.db.nextFolderID, path := folderPathOf e,
          title := pathBase (folderPathOf e),
          parentID := (findFolder st.db (parentPathOf e)).elim 0 (fun pf => pf.id) }
        { st with
          db := { st.db with
            folders := st.db.folders ++
              [{ id := st.db.nextFolderID, path := folderPathOf e,
                 title := pathBase (folderPathOf e),
                 parentID := (findFolder st.db (parentPathOf e)).elim 0 (fun pf => pf.id) }],
            nextFolderID := st.db.nextFolderID + 1, writes := st.db.writes + 1 },
          folderCount := st.folderCount + 1 } := by
  have hlen : l.length = 0 ↔ False := by
    simp [List.length_eq_zero, hl]
  cases hp : findFolder st.db (parentPathOf e) with
  | none => simp [resolveFolder, honestOps, hc, hf, hrd, hlen, hp]
  | some pf => simp [resolveFolder, honestOps, hc, hf, hrd, hlen, hp]

/-- Over the reference store, a successful folder resolution either leaves
the state unchanged or appends exactly the returned folder record. -/
theorem resolveFolder_use_cases (fs : FS) (e : FSEntry) (st : ScanState)
    (f : Folder) (st1 : ScanState)
    (h : resolveFolder honestOps fs e st = .use f st1) :
    st1 = st ∨
      st1 = { st with
        db := { st.db with
          folders := st.db.folders ++ [f],
          nextFolderID := st.db.nextFolderID + 1,
          writes := st.db.writes + 1 },
        folderCount := st.folderCount + 1 } := by
  rcases hc : st.folderCache.lookup (folderPathOf e) with _ | f0
  case some =>
    rw [resolveFolder_cache fs e st f0 hc] at h
    cases h; exact Or.inl rfl
  case none =>
  rcases hf : findFolder st.db (folderPathOf e) with _ | g
  case some =>
    rw [resolveFolder_load fs e st g hc hf] at h
    cases h; exact Or.inl rfl
  case none =>
  rcases hrd : fs.readDir (folderPathOf e) with er | l
  case error =>
    rw [resolveFolder_fsErr fs e st er hc hf hrd] at h
    cases h
  case ok =>
  by_cases hl : l = []
  · subst hl
    rw [resolveFolder_skip fs e st hc hf hrd] at h
    cases h
  · rw [resolveFolder_new fs e st l hc hf hrd hl] at h
    cases h; exact Or.inr rfl

/-! #### Equations for artist, album, song and art handling over the
reference store -/

theorem resolveArtist_cache (m : SongMeta) (st : ScanState) (a : Artist)
    (hc : st.artistCache.lookup m.artist = some a) :
    resolveArtist honestOps m st = (a, st) := by
  simp [resolveArtist, hc]

theorem resolveArtist_load (m : SongMeta) (st : ScanState) (a : Artist)
    (hc : st.artistCache.lookup m.artist = none)
    (hf : findArtist st.db m.artist = some a) :
    resolveArtist honestOps m st = (a, st) := by
  simp [resolveArtist, honestOps, artistFromMeta, hc, hf]

theorem resolveArtist_save (m : SongMeta) (st : ScanState)
    (hc : st.artistCache.lookup m.artist = none)
    (hf : findArtist st.db m.artist = none) :
    resolveArtist honestOps m st =
      ({ id := st.db.nextArtistID, title := m.artist },
       { st with
         db := { st.db with
           artists := st.db.artists ++ [{ id := st.db.nextArtistID, title := m.artist }],
           nextArtistID := st.db.nextArtistID + 1,
           writes := st.db.writes + 1 },
         artistCount := st.artistCount + 1 }) := by
  simp [resolveArtist, honestOps, artistFromMeta, hc, hf]

/-- Over the reference store, artist resolution either leaves the state
unchanged or appends exactly the returned artist record. -/
theorem resolveArtist_cases (m : SongMeta) (st : ScanState) (a : Artist)
    (st1 : ScanState) (h : resolveArtist honestOps m st = (a, st1)) :
    st1 = st ∨
      st1 = { st with
        db := { st.db with
          artists := st.db.artists ++ [a],
          nextArtistID := st.db.nextArtistID + 1,
          writes := st.db.writes + 1 },
        artistCount := st.artistCount + 1 } := by
  rcases hc : st.artistCache.lookup m.artist with _ | a0
  case some =>
    rw [resolveArtist_cache m st a0 hc] at h
    cases h; exact Or.inl rfl
  case none =>
  rcases hf : findArtist st.db m.artist with _ | b
  case some =>
    rw [resolveArtist_load m st b hc hf] at h
    cases h; exact Or.inl rfl
  case none =>
    rw [resolveArtist_save m st hc hf] at h
    cases h; exact Or.inr rfl

theorem resolveAlbum_cache (al0 : Album) (st : ScanState) (al : Album)
    (hc : st.albumCache.lookup (albumKey al0.artistID al0.title) = some al) :
    resolveAlbum honestOps al0 st = (al, st) := by
  simp [resolveAlbum, hc]

theorem resolveAlbum_load (al0 : Album) (st : ScanState) (al : Album)
    (hc : st.albumCache.lookup (albumKey al0.artistID al0.title) = none)
    (hf : findAlbum st.db al0.artistID al0.title = some al) :
    resolveAlbum honestOps al0 st = (al, st) := by
  simp [resolveAlbum, honestOps, hc, hf]

theorem resolveAlbum_save (al0 : Album) (st : ScanState)
    (hc : st.albumCache.lookup (albumKey al0.artistID al0.title) = none)
    (hf : findAlbum st.db al0.artistID al0.title = none) :
    resolveAlbum honestOps al0 st =
      ({ al0 with id := st.db.nextAlbumID },
       { st with
         db := { st.db with
           albums := st.db.albums ++ [{ al0 with id := st.db.nextAlbumID }],
           nextAlbumID := st.db.nextAlbumID + 1,
           writes := st.db.writes + 1 },
         albumCount := st.albumCount + 1 }) := by
  simp [resolveAlbum, honestOps, hc, hf]

/-- Over the reference store, album resolution either leaves the state
unchanged or appends exactly the returned album record. -/
theorem resolveAlbum_cases (al0 : Album) (st : ScanState) (al : Album)
    (st1 : ScanState) (h : resolveAlbum honestOps al0 st = (al, st1)) :
    st1 = st ∨
      st1 = { st with
        db := { st.db with
          albums := st.db.albums ++ [al],
          nextAlbumID := st.db.nextAlbumID + 1,
          writes := st.db.writes + 1 },
        albumCount := st.albumCount + 1 } := by
  rcases hc : st.albumCache.lookup (albumKey al0.artistID al0.title) with _ | b0
  case some =>
    rw [resolveAlbum_cache al0 st b0 hc] at h
    cases h; exact Or.inl rfl
  case none =>
  rcases hf : findAlbum st.db al0.artistID al0.title with _ | b
  case some =>
    rw [resolveAlbum_load al0 st b hc hf] at h
    cases h; exact Or.inl rfl
  case none =>
    rw [resolveAlbum_save al0 st hc hf] at h
    cases h; exact Or.inr rfl

theorem saveOrUpdateSong_new (song : Song) (st : ScanState)
    (hf : findSong st.db song.fileName = none) :
    saveOrUpdateSong honestOps song st =
      { st with
        db := { st.db with
          songs := st.db.songs ++ [{ song with id := st.db.nextSongID }],
          nextSongID := st.db.nextSongID + 1,
          writes := st.db.writes + 1 },
        songCount := st.songCount + 1 } := by
  simp [saveOrUpdateSong, honestOps, hf]

theorem saveOrUpdateSong_update (song : Song) (st : ScanState) (s2 : Song)
    (hf : findSong st.db song.fileName = some s2)
    (hlt : s2.lastModified < song.lastModified) :
    saveOrUpdateSong honestOps song st =
      { st with
        db := { st.db with
          songs := st.db.songs.map
            (fun t => if t.id == s2.id then { song with id := s2.id } else t),
          writes := st.db.writes + 1 },
        songUpdateCount := st.songUpdateCount + 1 } := by
  simp [saveOrUpdateSong, honestOps, hf, hlt]

theorem saveOrUpdateSong_skip (song : Song) (st : ScanState) (s2 : Song)
    (hf : findSong st.db song.fileName = some s2)
    (hge : ¬ s2.lastModified < song.lastModified) :
    saveOrUpdateSong honestOps song st = st := by
  simp [saveOrUpdateSong, honestOps, hf, hge]

/-- Over the reference store, the song save-or-update step leaves the state
unchanged, appends a new song, or rewrites exactly the records with the
existing song's ID. -/
theorem saveOrUpdateSong_cases (song : Song) (st : ScanState) (st1 : ScanState)
    (h : saveOrUpdateSong honestOps song st = st1) :
    st1 = st ∨
      (st1 = { st with
        db := { st.db with
          songs := st.db.songs ++ [{ song with id := st.db.nextSongID }],
          nextSongID := st.db.nextSongID + 1,
          writes := st.db.writes + 1 },
        songCount := st.songCount + 1 }) ∨
      (∃ i, st1 = { st with
        db := { st.db with
          songs := st.db.songs.map
            (fun t => if t.id == i then { song with id := i } else t),
          writes := st.db.writes + 1 },
        songUpdateCount := st.songUpdateCount + 1 }) := by
  rcases hf : findSong st.db song.fileName with _ | s2
  case none =>
    rw [saveOrUpdateSong_new song st hf] at h
    exact Or.inr (Or.inl h.symm)
  case some =>
    by_cases hlt : s2.lastModified < song.lastModified
    · rw [saveOrUpdateSong_update song st s2 hf hlt] at h
      exact Or.inr (Or.inr ⟨s2.id, h.symm⟩)
    · rw [saveOrUpdateSong_skip song st s2 hf hlt] at h
      exact Or.inl h.symm

theorem handleArt_exists (e : FSEntry) (folder : Folder) (st : ScanState)
    (a : Art) (hf : findArt st.db e.path = some a) :
    handleArt honestOps e folder st = st := by
  simp [handleArt, honestOps, hf]

theorem handleArt_zero (e : FSEntry) (folder : Folder) (st : ScanState)
    (hf : findArt st.db e.path = none) (hz : e.size = 0) :
    handleArt honestOps e folder st = st := by
  simp [handleArt, honestOps, hf, hz]

theorem handleArt_new (e : FSEntry) (folder : Folder) (st : ScanState)
    (hf : findArt st.db e.path = none) (hz : e.size ≠ 0) :
    handleArt honestOps e folder st =
      { st with
        db := { st.db with
          arts := st.db.arts ++
            [{ id := st.db.nextArtID, fileName := e.path, fileSize := e.size,
               lastModified := e.modTime }],
          nextArtID := st.db.nextArtID + 1,
          writes := st.db.writes + 1 },
        artCount := st.artCount + 1,
        artFiles := st.artFiles ++
          [{ folderID := folder.id, artID := st.db.nextArtID }] } := by
  simp [handleArt, honestOps, hf, hz]

/-- Over the reference store, art handling either leaves the state
unchanged or appends one fresh art record and records its pair. -/
theorem handleArt_cases (e : FSEntry) (folder : Folder) (st : ScanState)
    (st1 : ScanState) (h : handleArt honestOps e folder st = st1) :
    st1 = st ∨
      st1 = { st with
        db := { st.db with
          arts := st.db.arts ++
            [{ id := st.db.nextArtID, fileName := e.path, fileSize := e.size,
               lastModified := e.modTime }],
          nextArtID := st.db.nextArtID + 1,
          writes := st.db.writes + 1 },
        artCount := st.artCount + 1,
        artFiles := st.artFiles ++
          [{ folderID := folder.id, artID := st.db.nextArtID }] } := by
  rcases hf : findArt st.db e.path with _ | a
  case some =>
    rw [handleArt_exists e folder st a hf] at h
    exact Or.inl h.symm
  case none =>
    by_cases hz : e.size = 0
    · rw [handleArt_zero e folder st hf hz] at h
      exact Or.inl h.symm
    · rw [handleArt_new e folder st hf hz] at h
      exact Or.inr h.symm

/-- Songs-only congruence for the Song lookup. -/
theorem findSong_eq_of_songs (db1 db2 : DB) (p : String)
    (h : db1.songs = db2.songs) : findSong db1 p = findSong db2 p := by
  unfold findSong; rw [h]

/-- When the folder step can yield a folder, the resolution returns
`.use`. -/
theorem resolveFolder_use_of (fs : FS) (e : FSEntry) (st : ScanState)
    (hu : folderStepUse fs st e = true) :
    ∃ f st1, resolveFolder honestOps fs e st = .use f st1 := by
  unfold folderStepUse at hu
  rcases hc : st.folderCache.lookup (folderPathOf e) with _ | f0
  case some => exact ⟨f0, st, resolveFolder_cache fs e st f0 hc⟩
  case none =>
  rcases hf : findFolder st.db (folderPathOf e) with _ | g
  case some => exact ⟨g, st, resolveFolder_load fs e st g hc hf⟩
  case none =>
  rcases hrd : fs.readDir (folderPathOf e) with er | l
  case error => simp [hc, hf, hrd] at hu
  case ok =>
    have hl : l ≠ [] := by
      simp [hc, hf, hrd] at hu
      simpa [List.isEmpty_iff] using hu
    exact ⟨_, _, resolveFolder_new fs e st l hc hf hrd hl⟩

/-- C6 (amended): a directory whose own listing is empty is skipped
entirely — no Folder record is created, no counter changes, no error is
raised, and the closure state is untouched. -/
theorem c6_amended_empty_dir_skipped (cfg : Cfg) (fs : FS) (n : Nat)
    (e : FSEntry) (st : ScanState)
    (hhalt : cfg.halt n = false) (hinfo : e.infoNone = false)
    (hdir : e.isDir = true)
    (hc : st.folderCache.lookup e.path = none)
    (hf : findFolder st.db e.path = none)
    (hrd : fs.readDir e.path = .ok []) :
    walkVisit honestOps cfg fs n e st = (st, none) := by
  have hfp : folderPathOf e = e.path := by simp [folderPathOf, hdir]
  have hskip : resolveFolder honestOps fs e st = .skip :=
    resolveFolder_skip fs e st (hfp ▸ hc) (hfp ▸ hf) (hfp ▸ hrd)
  simp [walkVisit, hhalt, hinfo, hskip]

/-- C4: when `MediaScan` visits an audio file whose path already has a Song
record, a strictly newer observed modification time updates the existing
record in place — only records carrying the stored ID are rewritten, to the
newly observed song data under that same ID — and the update counter grows
by exactly one; otherwise the song table and the counter are left
untouched. -/
theorem c4_song_update_in_place (cfg : Cfg) (fs : FS) (n : Nat) (e : FSEntry)
    (st : ScanState) (m : SongMeta) (ft : Nat) (song2 : Song)
    (hhalt : cfg.halt n = false) (hinfo : e.infoNone = false)
    (hart : cfg.artSet e.ext = false) (hmedia : cfg.mediaSet e.ext = true)
    (htag : e.tag = some m) (hsz : e.size ≠ 0)
    (hft : cfg.fileTypeMap e.ext = some ft)
    (hfold : folderStepUse fs st e = true)
    (hs2 : findSong st.db e.path = some song2) :
    ∃ st', walkVisit honestOps cfg fs n e st = (st', none) ∧
      (if song2.lastModified < e.modTime then
        st'.songUpdateCount = st.songUpdateCount + 1 ∧
        ∃ s', s'.id = song2.id ∧ s'.fileName = e.path ∧
          s'.lastModified = e.modTime ∧
          st'.db.songs = st.db.songs.map
            (fun t => if t.id == song2.id then s' else t)
      else st'.songUpdateCount = st.songUpdateCount ∧
        st'.db.songs = st.db.songs) := by
  obtain ⟨f, st1, huse⟩ := resolveFolder_use_of fs e st hfold
  have hst1 : st1.db.songs = st.db.songs ∧ st1.songUpdateCount = st.songUpdateCount := by
    rcases resolveFolder_use_cases fs e st f st1 huse with h | h <;> subst h <;> simp
  unfold walkVisit
  rw [hhalt, hinfo, huse]
  simp only [Bool.false_eq_true, if_false, hart, hmedia, Bool.not_true, Bool.not_false,
    Bool.false_and, Bool.and_false]
  unfold handleSong
  rw [htag]
  simp only [songFromMeta, emptySong]
  have hsz' : (e.size = 0) = False := by simp [hsz]
  simp only [hsz', if_false, hft]
  rcases hA : resolveArtist honestOps m
      { st1 with folderCache := (f.path, f) :: st1.folderCache } with ⟨artist, stA⟩
  have hstA : stA.db.songs = st.db.songs ∧ stA.songUpdateCount = st.songUpdateCount := by
    rcases resolveArtist_cases m _ artist stA hA with h | h <;> subst h <;>
      simp [hst1.1, hst1.2]
  dsimp only
  rcases hB : resolveAlbum honestOps
      { albumFromMeta m with artistID := artist.id }
      { stA with artistCache := (artist.title, artist) :: stA.artistCache } with ⟨album, stB⟩
  have hstB : stB.db.songs = st.db.songs ∧ stB.songUpdateCount = st.songUpdateCount := by
    rcases resolveAlbum_cases _ _ album stB hB with h | h <;> subst h <;>
      simp [hstA.1, hstA.2]
  dsimp only
  set stC : ScanState :=
    { stB with albumCache := (albumKey artist.id (albumFromMeta m).title, album)
        :: stB.albumCache } with hstC
  have hCsongs : stC.db.songs = st.db.songs := by simp [hstC, hstB.1]
  have hCcnt : stC.songUpdateCount = st.songUpdateCount := by simp [hstC, hstB.2]
  have hsC : findSong stC.db e.path = some song2 := by
    rw [findSong_eq_of_songs stC.db st.db e.path hCsongs]; exact hs2
  refine ⟨_, rfl, ?_⟩
  by_cases hlt : song2.lastModified < e.modTime
  · rw [saveOrUpdateSong_update _ stC song2 hsC hlt, if_pos hlt]
    refine ⟨by simp [hstB.2], ?_⟩
    refine ⟨{
      id := song2.id, folderID := f.id, artistID := artist.id,
      albumID := album.id, artID := 0, fileName := e.path, fileSize := e.size,
      lastModified := e.modTime, fileTypeID := ft, title := m.title,
      track := m.track, bitrate := m.bitrate }, rfl, rfl, rfl, ?_⟩
    simp only [hCsongs.symm]
  · rw [saveOrUpdateSong_skip _ stC song2 hsC hlt, if_neg hlt]
    exact ⟨hCcnt, hCsongs⟩

/-- When the folder step cannot abort, the resolution skips or yields a
folder. -/
theorem resolveFolder_ok_of (fs : FS) (e : FSEntry) (st : ScanState)
    (hu : folderStepOk fs st e = true) :
    resolveFolder honestOps fs e st = .skip ∨
      ∃ f st1, resolveFolder honestOps fs e st = .use f st1 := by
  unfold folderStepOk at hu
  rcases hc : st.folderCache.lookup (folderPathOf e) with _ | f0
  case some => exact Or.inr ⟨f0, st, resolveFolder_cache fs e st f0 hc⟩
  case none =>
  rcases hf : findFolder st.db (folderPathOf e) with _ | g
  case some => exact Or.inr ⟨g, st, resolveFolder_load fs e st g hc hf⟩
  case none =>
  rcases hrd : fs.readDir (folderPathOf e) with er | l
  case error => simp [hc, hf, hrd] at hu
  case ok =>
    by_cases hl : l = []
    · subst hl
      exact Or.inl (resolveFolder_skip fs e st hc hf hrd)
    · exact Or.inr ⟨_, _, resolveFolder_new fs e st l hc hf hrd hl⟩

/-- C7 (amended): a zero-size file never creates a Song or an Art record;
when it is an art file, a non-media file, or an audio file with readable
tags, the entry is silently skipped and the scan continues (an audio file
whose tag extraction fails still aborts, since tag extraction precedes the
size check). -/
theorem c7_amended_zero_size (cfg : Cfg) (fs : FS) (n : Nat) (e : FSEntry)
    (st : ScanState)
    (hhalt : cfg.halt n = false) (hinfo : e.infoNone = false)
    (hsz : e.size = 0) (hfold : folderStepOk fs st e = true) :
    (walkVisit honestOps cfg fs n e st).1.db.songs = st.db.songs ∧
    (walkVisit honestOps cfg fs n e st).1.db.arts = st.db.arts ∧
    ((cfg.artSet e.ext = true ∨ cfg.mediaSet e.ext = false ∨
        e.tag.isSome = true) →
      (walkVisit honestOps cfg fs n e st).2 = none) := by
  rcases resolveFolder_ok_of fs e st hfold with hskip | ⟨f, st1, huse⟩
  · simp [walkVisit, hhalt, hinfo, hskip]
  have hfr : st1.db.songs = st.db.songs ∧ st1.db.arts = st.db.arts := by
    rcases resolveFolder_use_cases fs e st f st1 huse with h | h <;> subst h <;> simp
  unfold walkVisit
  rw [hhalt, hinfo, huse]
  by_cases hart : cfg.artSet e.ext
  · have hha : handleArt honestOps e f
        { st1 with folderCache := (f.path, f) :: st1.folderCache } =
        { st1 with folderCache := (f.path, f) :: st1.folderCache } := by
      rcases hfa : findArt st1.db e.path with _ | a
      · exact handleArt_zero e f _ hfa hsz
      · exact handleArt_exists e f _ a hfa
    simp [hart, hha, hfr.1, hfr.2]
  · by_cases hmedia : cfg.mediaSet e.ext
    · rcases htag : e.tag with _ | m
      · simp [hart, hmedia, handleSong, htag, hfr.1, hfr.2]
      · simp [hart, hmedia, handleSong, htag, songFromMeta, emptySong, hsz,
          hfr.1, hfr.2]
    · simp [hart, hmedia, hfr.1, hfr.2]

/-- C1 (amended, abort half): an error from the new-folder save during the
walk aborts the scan immediately; the error is returned to the caller
unchanged, the returned count is zero, and the store is as it was before
the failing call. -/
theorem c1_amended_folder_save_abort (ops : StoreOps) (cfg : Cfg) (fs : FS)
    (db : DB) (e : FSEntry) (rest : List FSEntry) (l : List String)
    (er : StoreErr)
    (hents : fs.entries = e :: rest)
    (hhalt : cfg.halt 0 = false) (hinfo : e.infoNone = false)
    (hload : ops.folderLoad db
        { id := 0, path := folderPathOf e, title := "", parentID := 0 }
      = .error .noRows)
    (hrd : fs.readDir (folderPathOf e) = .ok l) (hl : l ≠ [])
    (hpload : ops.folderLoad db
        { id := 0, path := parentPathOf e, title := "", parentID := 0 }
      = .error .noRows)
    (hsave : ops.folderSave db
        { id := 0, path := folderPathOf e, title := pathBase (folderPathOf e),
          parentID := 0 }
      = .error er) :
    mediaScan ops cfg fs db =
      { count := 0, err := some (.store er), db := db,
        walk := initialScanState db } := by
  have hlen : l.length = 0 ↔ False := by
    simp [List.length_eq_zero, hl]
  have hvisit : walkVisit ops cfg fs 0 e (initialScanState db)
      = (initialScanState db, some (.store er)) := by
    unfold walkVisit resolveFolder
    rw [hhalt, hinfo]
    simp [initialScanState, hload, hrd, hlen, hpload, hsave]
  unfold mediaScan
  rw [hents]
  unfold walkFold
  rw [hvisit]
  rfl

/-- The artist found for a title carries that title. -/
theorem findArtist_title (db : DB) (t : String) (a : Artist)
    (h : findArtist db t = some a) : a.title = t := by
  unfold findArtist at h
  have := List.find?_some h
  simpa using this

/-- One walk step over a store that already reflects the entry returns no
error, performs no store write, records no art pair, changes no counter,
and keeps the artist cache consistent. -/
theorem walkVisit_reflects (cfg : Cfg) (fs : FS) (n : Nat) (e : FSEntry)
    (st : ScanState)
    (hhalt : cfg.halt n = false)
    (hre : reflectsEntry cfg fs st.db e = true)
    (hac : artistCacheOK st.artistCache st.db) :
    ∃ st', walkVisit honestOps cfg fs n e st = (st', none) ∧
      st'.db = st.db ∧
      st'.artCount = st.artCount ∧ st'.artistCount = st.artistCount ∧
      st'.albumCount = st.albumCount ∧ st'.songCount = st.songCount ∧
      st'.songUpdateCount = st.songUpdateCount ∧
      st'.folderCount = st.folderCount ∧
      st'.artFiles = st.artFiles ∧
      artistCacheOK st'.artistCache st.db := by
  have hre' := hre
  simp only [reflectsEntry, Bool.and_eq_true, Bool.not_eq_true'] at hre'
  obtain ⟨⟨⟨hinfo, h2⟩, h3⟩, h4⟩ := hre'
  -- resolve the folder without any store write
  have hfolder :
      resolveFolder honestOps fs e st = .skip ∨
      ∃ f, resolveFolder honestOps fs e st = .use f st := by
    rcases hc : st.folderCache.lookup (folderPathOf e) with _ | f0
    case some => exact Or.inr ⟨f0, resolveFolder_cache fs e st f0 hc⟩
    case none =>
      rcases hf : findFolder st.db (folderPathOf e) with _ | g
      case some => exact Or.inr ⟨g, resolveFolder_load fs e st g hc hf⟩
      case none =>
        rcases hrd : fs.readDir (folderPathOf e) with er | l
        case error => simp [hf, hrd] at h2
        case ok =>
          have hl : l = [] := by
            simp [hf, hrd, List.isEmpty_iff] at h2
            exact h2
          subst hl
          exact Or.inl (resolveFolder_skip fs e st hc hf hrd)
  rcases hfolder with hskip | ⟨f, huse⟩
  · refine ⟨st, ?_, rfl, rfl, rfl, rfl, rfl, rfl, rfl, rfl, hac⟩
    simp [walkVisit, hhalt, hinfo, hskip]
  unfold walkVisit
  rw [hhalt, hinfo, huse]
  set st2 : ScanState := { st with folderCache := (f.path, f) :: st.folderCache }
    with hst2
  by_cases hartE : cfg.artSet e.ext
  · -- art branch: the art is already indexed or has size zero
    have hha : handleArt honestOps e f st2 = st2 := by
      rcases hfa : findArt st.db e.path with _ | a
      case none =>
        have hz : e.size = 0 := by
          simp [hartE, hfa] at h3
          simpa using h3
        exact handleArt_zero e f st2 hfa hz
      case some => exact handleArt_exists e f st2 a hfa
    refine ⟨st2, ?_, rfl, rfl, rfl, rfl, rfl, rfl, rfl, rfl, hac⟩
    simp [hartE, hha]
  · by_cases hmediaE : cfg.mediaSet e.ext
    · -- audio branch
      rcases htag : e.tag with _ | m
      · simp [hartE, hmediaE, htag] at h4
      ·
        have h4' :
            (e.size == 0) = true ∨
            ((cfg.fileTypeMap e.ext).isSome &&
             (match findArtist st.db m.artist with
              | none => false
              | some a =>
                (findAlbum st.db a.id m.album).isSome &&
                (match findSong st.db e.path with
                 | none => false
                 | some s => decide (e.modTime ≤ s.lastModified)))) = true := by
          simpa [hartE, hmediaE, htag, Bool.or_eq_true] using h4
        by_cases hsz : e.size = 0
        · refine ⟨st2, ?_, rfl, rfl, rfl, rfl, rfl, rfl, rfl, rfl, hac⟩
          simp [hartE, hmediaE, handleSong, htag, songFromMeta, emptySong, hsz]
        · have h4'' := h4'.resolve_left (by simpa using hsz)
          obtain ⟨hfts, hrest⟩ := (Bool.and_eq_true _ _).mp h4''
          obtain ⟨ft, hft⟩ := Option.isSome_iff_exists.mp hfts
          rcases hfa : findArtist st.db m.artist with _ | a
          · rw [hfa] at hrest; simp at hrest
          · rw [hfa] at hrest
            obtain ⟨halb, hsong⟩ := (Bool.and_eq_true _ _).mp hrest
            obtain ⟨al, hal⟩ := Option.isSome_iff_exists.mp halb
            rcases hfs : findSong st.db e.path with _ | s
            · rw [hfs] at hsong; simp at hsong
            · rw [hfs] at hsong
              have hle : e.modTime ≤ s.lastModified := by
                simpa using hsong
              -- the artist resolves to `a` without a write
              have hartres : resolveArtist honestOps m st2 = (a, st2) := by
                rcases hcA : st.artistCache.lookup m.artist with _ | a0
                case none => exact resolveArtist_load m st2 a hcA hfa
                case some =>
                  have ha0 : a0 = a := by
                    have := hac m.artist a0 hcA
                    rw [this] at hfa
                    exact Option.some_injective _ hfa
                  rw [ha0] at hcA
                  exact resolveArtist_cache m st2 a hcA
              have hatitle : a.title = m.artist := findArtist_title st.db m.artist a hfa
              simp only [hartE, hmediaE, Bool.not_true, Bool.not_false,
                Bool.and_false, Bool.false_and, Bool.and_self, if_false,
                Bool.false_eq_true]
              unfold handleSong
              rw [htag]
              simp only [songFromMeta, emptySong]
              have hsz' : (e.size = 0) = False := by simp [hsz]
              simp only [hsz', if_false, hft]
              rw [hartres]
              dsimp only
              set stA : ScanState :=
                { st2 with artistCache := (a.title, a) :: st2.artistCache }
                with hstA
              rcases hB : resolveAlbum honestOps
                  { albumFromMeta m with artistID := a.id } stA with ⟨album, stB⟩
              have hBeq : stB = stA := by
                rcases hcB : stA.albumCache.lookup (albumKey a.id m.album)
                    with _ | al0
                case none =>
                  rw [resolveAlbum_load _ stA al hcB hal] at hB
                  exact ((Prod.mk.injEq _ _ _ _).mp hB).2.symm
                case some =>
                  rw [resolveAlbum_cache _ stA al0 hcB] at hB
                  exact ((Prod.mk.injEq _ _ _ _).mp hB).2.symm
              subst hBeq
              dsimp only
              have hskipS : saveOrUpdateSong honestOps
                  { id := 0, folderID := f.id, artistID := a.id,
                    albumID := album.id, artID := 0, fileName := e.path,
                    fileSize := e.size, lastModified := e.modTime,
                    fileTypeID := ft, title := m.title, track := m.track,
                    bitrate := m.bitrate }
                  { stA with albumCache :=
                      (albumKey a.id (albumFromMeta m).title, album)
                        :: stA.albumCache }
                  = { stA with albumCache :=
                      (albumKey a.id (albumFromMeta m).title, album)
                        :: stA.albumCache } := by
                refine saveOrUpdateSong_skip _ _ s ?_ ?_
                · exact hfs
                · exact not_lt.mpr hle
              refine ⟨{ stA with albumCache :=
                  (albumKey a.id (albumFromMeta m).title, album)
                    :: stA.albumCache },
                by rw [hskipS], rfl, rfl, rfl, rfl, rfl, rfl, rfl, rfl, ?_⟩
              intro k x hx
              by_cases hk : k = a.title
              · subst hk
                have hxa : x = a := by
                  have := hx
                  simpa [hstA, hst2, List.lookup] using this.symm
                subst hxa
                rw [hatitle]
                exact hfa
              · have hkb : (k == a.title) = false := by simpa using hk
                apply hac
                simpa [hstA, hst2, List.lookup, hkb] using hx
    · -- neither media nor art: skipped after folder handling
      refine ⟨st2, ?_, rfl, rfl, rfl, rfl, rfl, rfl, rfl, rfl, hac⟩
      simp [hartE, hmediaE]

/-- The whole walk over a store that already reflects every entry returns
no error and changes neither the store nor any counter nor the recorded
art pairs. -/
theorem walkFold_reflects (cfg : Cfg) (fs : FS) (entries : List FSEntry)
    (n : Nat) (st : ScanState)
    (hhalt : ∀ k, cfg.halt k = false)
    (hre : ∀ e ∈ entries, reflectsEntry cfg fs st.db e = true)
    (hac : artistCacheOK st.artistCache st.db) :
    ∃ st', walkFold honestOps cfg fs entries n st = (st', none) ∧
      st'.db = st.db ∧
      st'.artCount = st.artCount ∧ st'.artistCount = st.artistCount ∧
      st'.albumCount = st.albumCount ∧ st'.songCount = st.songCount ∧
      st'.songUpdateCount = st.songUpdateCount ∧
      st'.folderCount = st.folderCount ∧
      st'.artFiles = st.artFiles := by
  induction entries generalizing n st with
  | nil => exact ⟨st, rfl, rfl, rfl, rfl, rfl, rfl, rfl, rfl, rfl⟩
  | cons e rest ih =>
    obtain ⟨st1, hv, hdb1, ha1, hb1, hc1, hd1, he1, hf1, hg1, hac1⟩ :=
      walkVisit_reflects cfg fs n e st (hhalt n) (hre e (by simp)) hac
    obtain ⟨st', hw, hdb2, ha2, hb2, hc2, hd2, he2, hf2, hg2⟩ :=
      ih (n + 1) st1
        (by
          intro x hx
          rw [hdb1]
          exact hre x (by simp [hx]))
        (by rw [hdb1]; exact hac1)
    refine ⟨st', ?_, ?_, ?_, ?_, ?_, ?_, ?_, ?_, ?_⟩
    · unfold walkFold
      rw [hv]
      exact hw
    · rw [hdb2, hdb1]
    · rw [ha2, ha1]
    · rw [hb2, hb1]
    · rw [hc2, hc1]
    · rw [hd2, hd1]
    · rw [he2, he1]
    · rw [hf2, hf1]
    · rw [hg2, hg1]

/-- C3: re-running `MediaScan` over a store that already reflects every
entry of the walked tree (the second of two consecutive scans of an
unchanged tree) returns change count zero with no error and leaves the
store completely unchanged — in particular, since every reference-store
save and update bumps the ghost write counter, no save or update is
performed on any record. -/
theorem c3_rescan_no_changes (cfg : Cfg) (fs : FS) (db : DB)
    (hhalt : ∀ k, cfg.halt k = false)
    (hre : ∀ e ∈ fs.entries, reflectsEntry cfg fs db e = true) :
    (mediaScan honestOps cfg fs db).count = 0 ∧
    (mediaScan honestOps cfg fs db).err = none ∧
    (mediaScan honestOps cfg fs db).db = db := by
  obtain ⟨st', hw, hdb, ha, hb, hc, hd, he, hf, hg⟩ :=
    walkFold_reflects cfg fs fs.entries 0 (initialScanState db) hhalt hre
      (fun k a h => by simp [initialScanState, List.lookup] at h)
  have hg' : st'.artFiles = [] := hg
  unfold mediaScan
  rw [hw]
  dsimp only
  rw [hg']
  simp only [applyArtPairs]
  simp [ha, hb, hc, hd, he, hf, hdb, initialScanState]

/-! #### The deferred art-association pass -/

/-- With distinct song IDs, a song is determined by its ID. -/
theorem eq_of_id_mem (l : List Song) (hnd : (l.map (fun s => s.id)).Nodup)
    (s t : Song) (hs : s ∈ l) (ht : t ∈ l) (h : t.id = s.id) : t = s :=
  List.inj_on_of_nodup_map hnd ht hs h

/-- The update loop of the deferred pass over the reference store: it never
fails and it sets the art ID of exactly the songs whose ID occurs in the
fetched list. -/
theorem updateSongsArt_spec (L : List Song) (aid : Nat) (db : DB)
    (hsub : ∀ s ∈ L, s ∈ db.songs)
    (hLnd : (L.map (fun s => s.id)).Nodup)
    (hnd : (db.songs.map (fun s => s.id)).Nodup) :
    (updateSongsArt honestOps L aid db).2 = none ∧
    (updateSongsArt honestOps L aid db).1.songs
      = db.songs.map (fun t =>
          if L.any (fun s => s.id == t.id) then { t with artID := aid } else t) := by
  induction L generalizing db with
  | nil =>
    refine ⟨rfl, ?_⟩
    simp [updateSongsArt]
  | cons s L' ih =>
    have hsid : s.id ∉ L'.map (fun s => s.id) := by
      simpa using hLnd.not_mem
    have hsdb : s ∈ db.songs := hsub s (by simp)
    have hmapid : (db.songs.map (fun t =>
        if t.id == s.id then { s with artID := aid } else t)).map (fun s => s.id)
        = db.songs.map (fun s => s.id) := by
      rw [List.map_map]
      apply List.map_congr_left
      intro t _
      by_cases hts : t.id = s.id
      · simp [hts]
      · simp [hts]
    obtain ⟨hok, hsongs⟩ := ih
      { db with
        songs := db.songs.map
          (fun t => if t.id == s.id then { s with artID := aid } else t),
        writes := db.writes + 1 }
      (by
        intro x hx
        have hxdb := hsub x (by simp [hx])
        have hxid : x.id ≠ s.id := by
          intro hcon
          exact hsid (hcon ▸ List.mem_map_of_mem (fun s => s.id) hx)
        have := List.mem_map_of_mem
          (fun t => if t.id == s.id then { s with artID := aid } else t) hxdb
        simpa [hxid] using this)
      (List.Nodup.of_cons (by simpa using hLnd))
      (by simpa only [hmapid] using hnd)
    refine ⟨?_, ?_⟩
    · simpa [updateSongsArt, honestOps] using hok
    · have hstep : (updateSongsArt honestOps (s :: L') aid db).1
          = (updateSongsArt honestOps L' aid
              { db with
                songs := db.songs.map
                  (fun t => if t.id == s.id then { s with artID := aid } else t),
                writes := db.writes + 1 }).1 := by
        simp [updateSongsArt, honestOps]
      rw [hstep, hsongs]
      simp only [List.map_map]
      apply List.map_congr_left
      intro t htdb
      by_cases hts : t.id = s.id
      · have hteq : t = s := eq_of_id_mem db.songs hnd s t hsdb htdb hts
        subst hteq
        have hany : L'.any (fun x => x.id == t.id) = false := by
          rw [List.any_eq_false]
          intro x hx
          simp only [beq_iff_eq]
          intro hcon
          exact hsid (hts ▸ hcon ▸ List.mem_map_of_mem (fun s => s.id) hx)
        simp [Function.comp, hts, hany]
      · have hts' : ¬ s.id = t.id := fun hcon => hts hcon.symm
        simp [Function.comp, hts, hts']

/-- The deferred art pass over the reference store: it never fails, and its
effect on the song table is the pointwise application of the recorded
pairs. -/
theorem applyArtPairs_ok (pairs : List FolderArtPair) (db : DB)
    (hnd : (db.songs.map (fun s => s.id)).Nodup) :
    (applyArtPairs honestOps pairs db).2 = none ∧
    (applyArtPairs honestOps pairs db).1.songs = db.songs.map (artAfter pairs) := by
  induction pairs generalizing db with
  | nil =>
    refine ⟨rfl, ?_⟩
    rw [show artAfter ([] : List FolderArtPair) = id from rfl, List.map_id]
    rfl
  | cons p ps ih =>
    have hsubL : ∀ s ∈ db.songs.filter (fun s => s.folderID == p.folderID),
        s ∈ db.songs := fun s hs => (List.mem_filter.mp hs).1
    have hndL : ((db.songs.filter (fun s => s.folderID == p.folderID)).map
        (fun s => s.id)).Nodup :=
      hnd.sublist (List.Sublist.map _ (List.filter_sublist _))
    obtain ⟨hok, hsongs⟩ :=
      updateSongsArt_spec (db.songs.filter (fun s => s.folderID == p.folderID))
        p.artID db hsubL hndL hnd
    rcases hU : updateSongsArt honestOps
        (db.songs.filter (fun s => s.folderID == p.folderID)) p.artID db
      with ⟨db1, r1⟩
    rw [hU] at hok hsongs
    dsimp only at hok hsongs
    subst hok
    have hsongs1 : db1.songs = db.songs.map (applyPairSong p) := by
      rw [hsongs]
      apply List.map_congr_left
      intro t htdb
      have hiff : (db.songs.filter (fun s => s.folderID == p.folderID)).any
          (fun s => s.id == t.id) = (t.folderID == p.folderID) := by
        by_cases hfp : t.folderID = p.folderID
        · have : t ∈ db.songs.filter (fun s => s.folderID == p.folderID) :=
            List.mem_filter.mpr ⟨htdb, by simp [hfp]⟩
          simp only [hfp, beq_self_eq_true]
          rw [List.any_eq_true]
          exact ⟨t, this, by simp⟩
        · have hb : (t.folderID == p.folderID) = false := by
            simp [beq_iff_eq, hfp]
          rw [hb, List.any_eq_false]
          intro x hx
          obtain ⟨hxdb, hxf⟩ := List.mem_filter.mp hx
          simp only [beq_iff_eq] at hxf ⊢
          intro hcon
          have : x = t := eq_of_id_mem db.songs hnd t x htdb hxdb hcon
          rw [this] at hxf
          exact hfp hxf
      rw [hiff]
      unfold applyPairSong
      rfl
    have hnd1 : (db1.songs.map (fun s => s.id)).Nodup := by
      rw [hsongs1, List.map_map]
      have : ((fun s => s.id) ∘ applyPairSong p) = (fun s : Song => s.id) := by
        funext t
        simp only [Function.comp_apply]
        unfold applyPairSong
        split <;> rfl
      rw [this]
      exact hnd
    obtain ⟨hok2, hsongs2⟩ := ih db1 hnd1
    have hq : honestOps.songsForFolder db p.folderID
        = .ok (db.songs.filter (fun s => s.folderID == p.folderID)) := rfl
    have hstep : applyArtPairs honestOps (p :: ps) db
        = applyArtPairs honestOps ps db1 := by
      conv_lhs => rw [applyArtPairs]
      rw [hq]
      dsimp only
      rw [hU]
    rw [hstep]
    refine ⟨hok2, ?_⟩
    rw [hsongs2, hsongs1, List.map_map]
    rfl

/-- The cumulative effect of the deferred pass on one song is to set its
art ID to the art of the last recorded pair for its folder, if any. -/
theorem artAfter_eq (pairs : List FolderArtPair) (s : Song) :
    artAfter pairs s
      = { s with artID := (lastArtFor s.folderID pairs).getD s.artID } := by
  induction pairs generalizing s with
  | nil => rfl
  | cons p ps ih =>
    have hcons : artAfter (p :: ps) s = artAfter ps (applyPairSong p s) := rfl
    rw [hcons, ih]
    have hfold : (applyPairSong p s).folderID = s.folderID := by
      unfold applyPairSong
      split <;> rfl
    rw [hfold]
    cases hl : lastArtFor s.folderID ps with
    | some a =>
      show _ = { s with artID := (lastArtFor s.folderID (p :: ps)).getD s.artID }
      have : lastArtFor s.folderID (p :: ps) = some a := by
        unfold lastArtFor
        rw [hl]
      rw [this]
      unfold applyPairSong
      split <;> rfl
    | none =>
      have : lastArtFor s.folderID (p :: ps)
          = if p.folderID == s.folderID then some p.artID else none := by
        unfold lastArtFor
        rw [hl]
      rw [this]
      by_cases hfp : s.folderID = p.folderID
      · simp only [hfp, beq_self_eq_true, if_true]
        unfold applyPairSong
        simp [hfp]
      · have h1 : (p.folderID == s.folderID) = false := by
          simp [beq_iff_eq]
          exact fun hcon => hfp hcon.symm
        have h2 : (s.folderID == p.folderID) = false := by
          simp [beq_iff_eq, hfp]
        rw [h1]
        unfold applyPairSong
        rw [h2]
        rfl

/-- C5: when `MediaScan` completes without error, every (folder ID, art ID)
pair recorded during the walk is applied by the deferred pass: each song of
that folder in the final store carries the pair's art ID (for the pair left
in effect, i.e. the last pair recorded for its folder — in particular the
only pair when one song and one new cover share a folder, in either
discovery order). -/
theorem c5_art_association (cfg : Cfg) (fs : FS) (db : DB)
    (p : FolderArtPair) (s : Song)
    (hnd : ((mediaScan honestOps cfg fs db).walk.db.songs.map
      (fun s => s.id)).Nodup)
    (herr : (mediaScan honestOps cfg fs db).err = none)
    (hp : p ∈ (mediaScan honestOps cfg fs db).walk.artFiles)
    (hlast : lastArtFor p.folderID (mediaScan honestOps cfg fs db).walk.artFiles
      = some p.artID)
    (hs : s ∈ (mediaScan honestOps cfg fs db).db.songs)
    (hfid : s.folderID = p.folderID) :
    s.artID = p.artID := by
  rcases hw : walkFold honestOps cfg fs fs.entries 0 (initialScanState db)
    with ⟨st, r⟩
  cases r with
  | some er =>
    rw [mediaScan, hw] at herr
    simp at herr
  | none =>
    rcases ha : applyArtPairs honestOps st.artFiles st.db with ⟨db2, r2⟩
    rw [mediaScan, hw] at hnd hp hlast hs
    dsimp only at hnd hp hlast hs
    rw [ha] at hnd hp hlast hs
    cases r2 with
    | some er =>
      dsimp only at hnd
      obtain ⟨hok, _⟩ := applyArtPairs_ok st.artFiles st.db hnd
      rw [ha] at hok
      simp at hok
    | none =>
    dsimp only at hnd hp hlast hs
    obtain ⟨hok, hsongs⟩ := applyArtPairs_ok st.artFiles st.db hnd
    rw [ha] at hok hsongs
    dsimp only at hok hsongs
    rw [hsongs] at hs
    obtain ⟨t, htmem, hts⟩ := List.mem_map.mp hs
    rw [artAfter_eq] at hts
    have hsfold : s.folderID = t.folderID := by rw [← hts]
    have htfold : t.folderID = p.folderID := hsfold ▸ hfid
    have hart : s.artID = (lastArtFor t.folderID st.artFiles).getD t.artID := by
      rw [← hts]
    rw [htfold, hlast] at hart
    simpa using hart

/-- Audio handling never touches the art table, the art ID counter or the
recorded art pairs. -/
theorem handleSong_art_frame (cfg : Cfg) (e : FSEntry) (folder : Folder)
    (st st1 : ScanState) (r : Option WalkErr)
    (h : handleSong honestOps cfg e folder st = (st1, r)) :
    st1.db.nextArtID = st.db.nextArtID ∧ st1.artFiles = st.artFiles ∧
    st1.db.arts = st.db.arts := by
  unfold handleSong at h
  rcases htag : e.tag with _ | m
  · rw [htag] at h
    cases h
    exact ⟨rfl, rfl, rfl⟩
  · rw [htag] at h
    dsimp only at h
    by_cases hsz : e.size = 0
    · rw [if_pos hsz] at h
      cases h
      exact ⟨rfl, rfl, rfl⟩
    · rw [if_neg hsz] at h
      rcases hft : cfg.fileTypeMap e.ext with _ | ft
      · rw [hft] at h
        cases h
        exact ⟨rfl, rfl, rfl⟩
      · rw [hft] at h
        dsimp only at h
        rcases hA : resolveArtist honestOps m st with ⟨a, stA⟩
        rw [hA] at h
        dsimp only at h
        rcases hB : resolveAlbum honestOps
            { albumFromMeta m with artistID := a.id }
            { stA with artistCache := (a.title, a) :: stA.artistCache }
          with ⟨al, stB⟩
        rw [hB] at h
        dsimp only at h
        cases h
        rcases saveOrUpdateSong_cases _ _ _ rfl with hS | hS | ⟨i, hS⟩ <;>
          rcases resolveArtist_cases m st a stA hA with hA' | hA' <;>
          rcases resolveAlbum_cases _ _ al stB hB with hB' | hB' <;>
          rw [hS] <;> subst hB' <;> subst hA' <;>
          exact ⟨rfl, rfl, rfl⟩

/-- One walk step over the reference store only grows the art ID counter,
and every art pair it records carries a fresh art ID. -/
theorem walkVisit_art_fresh (cfg : Cfg) (fs : FS) (n : Nat) (e : FSEntry)
    (st st1 : ScanState) (r : Option WalkErr)
    (h : walkVisit honestOps cfg fs n e st = (st1, r)) :
    st.db.nextArtID ≤ st1.db.nextArtID ∧
    ∀ p ∈ st1.artFiles, p ∈ st.artFiles ∨ st.db.nextArtID ≤ p.artID := by
  unfold walkVisit at h
  by_cases hh : cfg.halt n = true
  · rw [if_pos hh] at h
    cases h
    exact ⟨le_refl _, fun p hp => Or.inl hp⟩
  · rw [if_neg hh] at h
    by_cases hi : e.infoNone = true
    · rw [if_pos hi] at h
      cases h
      exact ⟨le_refl _, fun p hp => Or.inl hp⟩
    · rw [if_neg hi] at h
      rcases hRF : resolveFolder honestOps fs e st with er | _ | ⟨f, stU⟩
      · rw [hRF] at h
        cases h
        exact ⟨le_refl _, fun p hp => Or.inl hp⟩
      · rw [hRF] at h
        cases h
        exact ⟨le_refl _, fun p hp => Or.inl hp⟩
      · rw [hRF] at h
        dsimp only at h
        have hU : stU.db.nextArtID = st.db.nextArtID ∧
            stU.artFiles = st.artFiles ∧ stU.db.arts = st.db.arts := by
          rcases resolveFolder_use_cases fs e st f stU hRF with hx | hx <;>
            subst hx <;> exact ⟨rfl, rfl, rfl⟩
        by_cases hne : (!cfg.mediaSet e.ext && !cfg.artSet e.ext) = true
        · rw [if_pos hne] at h
          cases h
          exact ⟨le_of_eq hU.1.symm,
            fun p hp => Or.inl (hU.2.1 ▸ hp)⟩
        · rw [if_neg hne] at h
          by_cases hart : cfg.artSet e.ext = true
          · rw [if_pos hart] at h
            cases h
            rcases handleArt_cases e f
                { stU with folderCache := (f.path, f) :: stU.folderCache }
                _ rfl with hx | hx
            · rw [hx]
              exact ⟨le_of_eq hU.1.symm, fun p hp => Or.inl (hU.2.1 ▸ hp)⟩
            · rw [hx]
              refine ⟨?_, ?_⟩
              · dsimp only
                rw [hU.1]
                exact Nat.le_succ _
              · intro p hp
                dsimp only at hp
                rw [hU.2.1] at hp
                rcases List.mem_append.mp hp with hp' | hp'
                · exact Or.inl hp'
                · right
                  have : p = { folderID := f.id, artID := stU.db.nextArtID } := by
                    simpa using hp'
                  rw [this, hU.1]
          · rw [if_neg hart] at h
            obtain ⟨h1, h2, _⟩ := handleSong_art_frame cfg e f _ st1 r h
            refine ⟨?_, ?_⟩
            · rw [h1]
              exact le_of_eq hU.1.symm
            · intro p hp
              rw [h2] at hp
              exact Or.inl (hU.2.1 ▸ hp)

/-- The whole walk over the reference store only grows the art ID counter,
and every art pair recorded during it carries an art ID at least the
counter's starting value. -/
theorem walkFold_art_fresh (cfg : Cfg) (fs : FS) (entries : List FSEntry)
    (n : Nat) (st st1 : ScanState) (r : Option WalkErr)
    (h : walkFold honestOps cfg fs entries n st = (st1, r)) :
    st.db.nextArtID ≤ st1.db.nextArtID ∧
    ∀ p ∈ st1.artFiles, p ∈ st.artFiles ∨ st.db.nextArtID ≤ p.artID := by
  induction entries generalizing n st with
  | nil =>
    cases h
    exact ⟨le_refl _, fun p hp => Or.inl hp⟩
  | cons e rest ih =>
    unfold walkFold at h
    rcases hv : walkVisit honestOps cfg fs n e st with ⟨stV, rV⟩
    rw [hv] at h
    obtain ⟨hm, hf⟩ := walkVisit_art_fresh cfg fs n e st stV rV hv
    cases rV with
    | some er =>
      cases h
      exact ⟨hm, hf⟩
    | none =>
      obtain ⟨hm2, hf2⟩ := ih (n + 1) stV h
      refine ⟨le_trans hm hm2, ?_⟩
      intro p hp
      rcases hf2 p hp with hp' | hp'
      · exact hf p hp'
      · exact Or.inr (le_trans hm hp')

/-- C10: the deferred pass applies only associations recorded during the
current walk, and touches only their folders: every recorded (folder, art)
pair carries an art ID assigned by a save of this pass (at least the
store's art ID counter at scan start, hence no pre-existing art record is
ever applied), and every song of the walk result whose folder has no
recorded pair — such as a song newly indexed into a folder whose art
already existed — reaches the final store unchanged. -/
theorem c10_art_pass_frame (cfg : Cfg) (fs : FS) (db : DB)
    (hnd : ((mediaScan honestOps cfg fs db).walk.db.songs.map
      (fun s => s.id)).Nodup)
    (herr : (mediaScan honestOps cfg fs db).err = none) :
    (∀ p ∈ (mediaScan honestOps cfg fs db).walk.artFiles,
      db.nextArtID ≤ p.artID) ∧
    (∀ s ∈ (mediaScan honestOps cfg fs db).walk.db.songs,
      lastArtFor s.folderID (mediaScan honestOps cfg fs db).walk.artFiles = none →
      s ∈ (mediaScan honestOps cfg fs db).db.songs) := by
  rcases hw : walkFold honestOps cfg fs fs.entries 0 (initialScanState db)
    with ⟨st, r⟩
  cases r with
  | some er =>
    rw [mediaScan, hw] at herr
    simp at herr
  | none =>
    rcases ha : applyArtPairs honestOps st.artFiles st.db with ⟨db2, r2⟩
    rw [mediaScan, hw] at hnd herr ⊢
    dsimp only at hnd herr ⊢
    rw [ha] at hnd herr ⊢
    cases r2 with
    | some er =>
      dsimp only at hnd
      obtain ⟨hok, _⟩ := applyArtPairs_ok st.artFiles st.db hnd
      rw [ha] at hok
      simp at hok
    | none =>
    dsimp only at hnd ⊢
    obtain ⟨_, hfresh⟩ :=
      walkFold_art_fresh cfg fs fs.entries 0 (initialScanState db) st none hw
    obtain ⟨_, hsongs⟩ := applyArtPairs_ok st.artFiles st.db hnd
    rw [ha] at hsongs
    dsimp only at hsongs
    refine ⟨?_, ?_⟩
    · intro p hp
      rcases hfresh p hp with hp' | hp'
      · simp [initialScanState] at hp'
      · exact hp'
    · intro s hs hnone
      rw [hsongs]
      have : artAfter st.artFiles s = s := by
        rw [artAfter_eq, hnone]
        rfl
      rw [← this]
      exact List.mem_map_of_mem (artAfter st.artFiles) hs

/-! #### The orphan scan phases -/

/-- The base-eviction art loop: it deletes exactly the queried IDs from the
art table, touches nothing else, and counts one deletion per queried
record. -/
theorem evictArts_spec (L : List Art) (db : DB) (c : Nat) :
    (∀ x, x ∈ (evictArts L db c).1.arts ↔
      x ∈ db.arts ∧ ∀ a ∈ L, x.id ≠ a.id) ∧
    (evictArts L db c).1.songs = db.songs ∧
    (evictArts L db c).1.folders = db.folders ∧
    (evictArts L db c).1.artists = db.artists ∧
    (evictArts L db c).1.albums = db.albums ∧
    (evictArts L db c).1.deletes = db.deletes + L.length ∧
    (evictArts L db c).2 = c + L.length := by
  induction L generalizing db c with
  | nil => simp [evictArts]
  | cons a L' ih =>
    obtain ⟨hmem, hs, hf, har, hal, hd, hc⟩ := ih (dbDeleteArt db a) (c + 1)
    refine ⟨?_, ?_, ?_, ?_, ?_, ?_, ?_⟩
    · intro x
      rw [show evictArts (a :: L') db c = evictArts L' (dbDeleteArt db a) (c + 1)
        from rfl]
      rw [hmem x]
      simp [dbDeleteArt, List.mem_filter, bne_iff_ne, and_assoc]
    · simpa [dbDeleteArt] using hs
    · simpa [dbDeleteArt] using hf
    · simpa [dbDeleteArt] using har
    · simpa [dbDeleteArt] using hal
    · rw [show evictArts (a :: L') db c = evictArts L' (dbDeleteArt db a) (c + 1)
        from rfl, hd]
      simp [dbDeleteArt]
      omega
    · rw [show evictArts (a :: L') db c = evictArts L' (dbDeleteArt db a) (c + 1)
        from rfl, hc]
      simp
      omega

/-- The base-eviction song loop, analogous to the art loop. -/
theorem evictSongs_spec (L : List Song) (db : DB) (c : Nat) :
    (∀ x, x ∈ (evictSongs L db c).1.songs ↔
      x ∈ db.songs ∧ ∀ a ∈ L, x.id ≠ a.id) ∧
    (evictSongs L db c).1.arts = db.arts ∧
    (evictSongs L db c).1.folders = db.folders ∧
    (evictSongs L db c).1.artists = db.artists ∧
    (evictSongs L db c).1.albums = db.albums ∧
    (evictSongs L db c).1.deletes = db.deletes + L.length ∧
    (evictSongs L db c).2 = c + L.length := by
  induction L generalizing db c with
  | nil => simp [evictSongs]
  | cons a L' ih =>
    obtain ⟨hmem, hs, hf, har, hal, hd, hc⟩ := ih (dbDeleteSong db a) (c + 1)
    refine ⟨?_, ?_, ?_, ?_, ?_, ?_, ?_⟩
    · intro x
      rw [show evictSongs (a :: L') db c
        = evictSongs L' (dbDeleteSong db a) (c + 1) from rfl]
      rw [hmem x]
      simp [dbDeleteSong, List.mem_filter, bne_iff_ne, and_assoc]
    · simpa [dbDeleteSong] using hs
    · simpa [dbDeleteSong] using hf
    · simpa [dbDeleteSong] using har
    · simpa [dbDeleteSong] using hal
    · rw [show evictSongs (a :: L') db c
        = evictSongs L' (dbDeleteSong db a) (c + 1) from rfl, hd]
      simp [dbDeleteSong]
      omega
    · rw [show evictSongs (a :: L') db c
        = evictSongs L' (dbDeleteSong db a) (c + 1) from rfl, hc]
      simp
      omega

/-- The base-eviction folder loop, analogous to the art loop. -/
theorem evictFolders_spec (L : List Folder) (db : DB) (c : Nat) :
    (∀ x, x ∈ (evictFolders L db c).1.folders ↔
      x ∈ db.folders ∧ ∀ a ∈ L, x.id ≠ a.id) ∧
    (evictFolders L db c).1.arts = db.arts ∧
    (evictFolders L db c).1.songs = db.songs ∧
    (evictFolders L db c).1.artists = db.artists ∧
    (evictFolders L db c).1.albums = db.albums ∧
    (evictFolders L db c).1.deletes = db.deletes + L.length ∧
    (evictFolders L db c).2 = c + L.length := by
  induction L generalizing db c with
  | nil => simp [evictFolders]
  | cons a L' ih =>
    obtain ⟨hmem, hs, hf, har, hal, hd, hc⟩ := ih (dbDeleteFolder db a) (c + 1)
    refine ⟨?_, ?_, ?_, ?_, ?_, ?_, ?_⟩
    · intro x
      rw [show evictFolders (a :: L') db c
        = evictFolders L' (dbDeleteFolder db a) (c + 1) from rfl]
      rw [hmem x]
      simp [dbDeleteFolder, List.mem_filter, bne_iff_ne, and_assoc]
    · simpa [dbDeleteFolder] using hs
    · simpa [dbDeleteFolder] using hf
    · simpa [dbDeleteFolder] using har
    · simpa [dbDeleteFolder] using hal
    · rw [show evictFolders (a :: L') db c
        = evictFolders L' (dbDeleteFolder db a) (c + 1) from rfl, hd]
      simp [dbDeleteFolder]
      omega
    · rw [show evictFolders (a :: L') db c
        = evictFolders L' (dbDeleteFolder db a) (c + 1) from rfl, hc]
      simp
      omega

/-- The art existence-verification loop only removes art records, touches
nothing else, and its count delta equals its deletion delta. -/
theorem checkArts_spec (fs : FS) (L : List Art) (db : DB) (c : Nat) :
    (∀ x ∈ (checkArts fs L db c).1.arts, x ∈ db.arts) ∧
    (checkArts fs L db c).1.songs = db.songs ∧
    (checkArts fs L db c).1.folders = db.folders ∧
    (checkArts fs L db c).1.artists = db.artists ∧
    (checkArts fs L db c).1.albums = db.albums ∧
    (checkArts fs L db c).2 + db.deletes = c + (checkArts fs L db c).1.deletes := by
  induction L generalizing db c with
  | nil =>
    refine ⟨fun x hx => hx, rfl, rfl, rfl, rfl, ?_⟩
    simp [checkArts, Nat.add_comm]
  | cons a L' ih =>
    by_cases hex : fs.statExists a.fileName
    · have hstep : checkArts fs (a :: L') db c = checkArts fs L' db c := by
        simp [checkArts, hex]
      rw [hstep]
      exact ih db c
    · have hstep : checkArts fs (a :: L') db c
          = checkArts fs L' (dbDeleteArt db a) (c + 1) := by
        simp [checkArts, hex]
      obtain ⟨hmem, hs, hf, har, hal, hd⟩ := ih (dbDeleteArt db a) (c + 1)
      rw [hstep]
      refine ⟨?_, ?_, ?_, ?_, ?_, ?_⟩
      · intro x hx
        have := hmem x hx
        simp only [dbDeleteArt, List.mem_filter] at this
        exact this.1
      · simpa [dbDeleteArt] using hs
      · simpa [dbDeleteArt] using hf
      · simpa [dbDeleteArt] using har
      · simpa [dbDeleteArt] using hal
      · have hdel : (dbDeleteArt db a).deletes = db.deletes + 1 := rfl
        rw [hdel] at hd
        omega

/-- The song existence-verification loop, analogous to the art loop. -/
theorem checkSongs_spec (fs : FS) (L : List Song) (db : DB) (c : Nat) :
    (∀ x ∈ (checkSongs fs L db c).1.songs, x ∈ db.songs) ∧
    (checkSongs fs L db c).1.arts = db.arts ∧
    (checkSongs fs L db c).1.folders = db.folders ∧
    (checkSongs fs L db c).1.artists = db.artists ∧
    (checkSongs fs L db c).1.albums = db.albums ∧
    (checkSongs fs L db c).2 + db.deletes = c + (checkSongs fs L db c).1.deletes := by
  induction L generalizing db c with
  | nil =>
    refine ⟨fun x hx => hx, rfl, rfl, rfl, rfl, ?_⟩
    simp [checkSongs, Nat.add_comm]
  | cons a L' ih =>
    by_cases hex : fs.statExists a.fileName
    · have hstep : checkSongs fs (a :: L') db c = checkSongs fs L' db c := by
        simp [checkSongs, hex]
      rw [hstep]
      exact ih db c
    · have hstep : checkSongs fs (a :: L') db c
          = checkSongs fs L' (dbDeleteSong db a) (c + 1) := by
        simp [checkSongs, hex]
      obtain ⟨hmem, hs, hf, har, hal, hd⟩ := ih (dbDeleteSong db a) (c + 1)
      rw [hstep]
      refine ⟨?_, ?_, ?_, ?_, ?_, ?_⟩
      · intro x hx
        have := hmem x hx
        simp only [dbDeleteSong, List.mem_filter] at this
        exact this.1
      · simpa [dbDeleteSong] using hs
      · simpa [dbDeleteSong] using hf
      · simpa [dbDeleteSong] using har
      · simpa [dbDeleteSong] using hal
      · have hdel : (dbDeleteSong db a).deletes = db.deletes + 1 := rfl
        rw [hdel] at hd
        omega

/-- The folder emptiness-verification loop only removes folder records,
touches nothing else, and — when it does not abort — its count delta equals
its deletion delta. -/
theorem checkFolders_spec (fs : FS) (L : List Folder) (db : DB) (c : Nat) :
    (∀ x ∈ (checkFolders fs L db c).1.folders, x ∈ db.folders) ∧
    (checkFolders fs L db c).1.arts = db.arts ∧
    (checkFolders fs L db c).1.songs = db.songs ∧
    (checkFolders fs L db c).1.artists = db.artists ∧
    (checkFolders fs L db c).1.albums = db.albums ∧
    ((checkFolders fs L db c).2.2 = none →
      (checkFolders fs L db c).2.1 + db.deletes
        = c + (checkFolders fs L db c).1.deletes) := by
  induction L generalizing db c with
  | nil =>
    refine ⟨fun x hx => hx, rfl, rfl, rfl, rfl, ?_⟩
    intro _
    simp [checkFolders, Nat.add_comm]
  | cons a L' ih =>
    rcases hrd : fs.readDir a.path with er | files
    case error =>
      cases er with
      | notExist =>
        have hstep : checkFolders fs (a :: L') db c
            = checkFolders fs L' (dbDeleteFolder db a) (c + 1) := by
          simp [checkFolders, hrd]
        obtain ⟨hmem, har, hs, hart, hal, hd⟩ := ih (dbDeleteFolder db a) (c + 1)
        rw [hstep]
        refine ⟨?_, ?_, ?_, ?_, ?_, ?_⟩
        · intro x hx
          have := hmem x hx
          simp only [dbDeleteFolder, List.mem_filter] at this
          exact this.1
        · simpa [dbDeleteFolder] using har
        · simpa [dbDeleteFolder] using hs
        · simpa [dbDeleteFolder] using hart
        · simpa [dbDeleteFolder] using hal
        · intro hnone
          have hthis := hd hnone
          have hdel : (dbDeleteFolder db a).deletes = db.deletes + 1 := rfl
          rw [hdel] at hthis
          omega
      | other msg =>
        have hstep : checkFolders fs (a :: L') db c = (db, c, some (.other msg)) := by
          simp [checkFolders, hrd]
        rw [hstep]
        exact ⟨fun x hx => hx, rfl, rfl, rfl, rfl, by intro hcon; simp at hcon⟩
    case ok =>
      by_cases hlen : files.length = 0
      · have hstep : checkFolders fs (a :: L') db c
            = checkFolders fs L' (dbDeleteFolder db a) (c + 1) := by
          simp [checkFolders, hrd, hlen]
        obtain ⟨hmem, har, hs, hart, hal, hd⟩ := ih (dbDeleteFolder db a) (c + 1)
        rw [hstep]
        refine ⟨?_, ?_, ?_, ?_, ?_, ?_⟩
        · intro x hx
          have := hmem x hx
          simp only [dbDeleteFolder, List.mem_filter] at this
          exact this.1
        · simpa [dbDeleteFolder] using har
        · simpa [dbDeleteFolder] using hs
        · simpa [dbDeleteFolder] using hart
        · simpa [dbDeleteFolder] using hal
        · intro hnone
          have hthis := hd hnone
          have hdel : (dbDeleteFolder db a).deletes = db.deletes + 1 := rfl
          rw [hdel] at hthis
          omega
      · have hstep : checkFolders fs (a :: L') db c = checkFolders fs L' db c := by
          simp [checkFolders, hrd, hlen]
        rw [hstep]
        exact ih db c

/-- C9: in every `OrphanScan` that completes without error, the cascading
purge runs after the song and folder cleanup and deletes children before
parents: the final store contains no Album with zero remaining songs and no
Artist with zero remaining albums (the latter would fail if artists were
purged before albums), and the returned count equals the total number of
deletions performed, each deletion counted once. -/
theorem c9_cascading_purge (fs : FS) (base sub : String) (halt : Nat → Bool)
    (db : DB)
    (herr : (orphanScan fs base sub halt db).err = none) :
    (∀ al ∈ (orphanScan fs base sub halt db).db.albums,
      ∃ s ∈ (orphanScan fs base sub halt db).db.songs, s.albumID = al.id) ∧
    (∀ ar ∈ (orphanScan fs base sub halt db).db.artists,
      ∃ al ∈ (orphanScan fs base sub halt db).db.albums, al.artistID = ar.id) ∧
    (orphanScan fs base sub halt db).count + db.deletes
      = (orphanScan fs base sub halt db).db.deletes := by
  rcases hE : (if base ≠ "" then baseEvict base db else (db, 0, 0, 0))
    with ⟨db0, a0, s0, f0⟩
  have hE0 : a0 + s0 + f0 + db.deletes = db0.deletes := by
    by_cases hb : base ≠ ""
    · rw [if_pos hb] at hE
      unfold baseEvict at hE
      rcases hA : evictArts (artNotInPath db base) db 0 with ⟨dbA, cA⟩
      rcases hS : evictSongs (songsNotInPath dbA base) dbA 0 with ⟨dbS, cS⟩
      rcases hF : evictFolders (foldersNotInPath dbS base) dbS 0 with ⟨dbF, cF⟩
      rw [hA] at hE
      dsimp only at hE
      rw [hS] at hE
      dsimp only at hE
      rw [hF] at hE
      dsimp only at hE
      cases hE
      have h1 := evictArts_spec (artNotInPath db base) db 0
      have h2 := evictSongs_spec (songsNotInPath dbA base) dbA 0
      have h3 := evictFolders_spec (foldersNotInPath dbS base) dbS 0
      rw [hA] at h1
      rw [hS] at h2
      rw [hF] at h3
      obtain ⟨_, _, _, _, _, hd1, hc1⟩ := h1
      obtain ⟨_, _, _, _, _, hd2, hc2⟩ := h2
      obtain ⟨_, _, _, _, _, hd3, hc3⟩ := h3
      dsimp only at hd1 hc1 hd2 hc2 hd3 hc3
      omega
    · rw [if_neg hb] at hE
      cases hE
      omega
  rcases hA : checkArts fs (artInPath db0 (if sub = "" then base else sub)) db0 a0
    with ⟨db1, artC⟩
  rcases hS : checkSongs fs (songsInPath db1 (if sub = "" then base else sub)) db1 s0
    with ⟨db2, songC⟩
  rcases hF : checkFolders fs (foldersInPath db2 (if sub = "" then base else sub)) db2 f0
    with ⟨db3, folderC, rF⟩
  have hrun : orphanScan fs base sub halt db =
      (match checkFolders fs (foldersInPath db2 (if sub = "" then base else sub)) db2 f0 with
       | (db3, _, some er) => { count := 0, err := some er, db := db3 }
       | (db3, folderC, none) =>
         let pa := purgeOrphanAlbums db3
         let pr := purgeOrphanArtists pa.2
         { count := artC + pr.1 + pa.1 + songC + folderC, err := none,
           db := pr.2 }) := by
    unfold orphanScan
    rw [hE]
    dsimp only
    rw [hA]
    dsimp only
    rw [hS]
  rw [hF] at hrun
  cases rF with
  | some er =>
    rw [hrun] at herr
    simp at herr
  | none =>
    dsimp only at hrun
    have hd1 := (checkArts_spec fs (artInPath db0 (if sub = "" then base else sub)) db0 a0).2.2.2.2.2
    have hd2 := (checkSongs_spec fs (songsInPath db1 (if sub = "" then base else sub)) db1 s0).2.2.2.2.2
    have hd3 := (checkFolders_spec fs (foldersInPath db2 (if sub = "" then base else sub)) db2 f0).2.2.2.2.2
    rw [hA] at hd1
    rw [hS] at hd2
    rw [hF] at hd3
    dsimp only at hd1 hd2 hd3
    have hd3' := hd3 rfl
    rw [hrun]
    dsimp only
    refine ⟨?_, ?_, ?_⟩
    · intro al hal
      simp only [purgeOrphanArtists, purgeOrphanAlbums] at hal ⊢
      obtain ⟨halmem, halany⟩ := List.mem_filter.mp hal
      rw [List.any_eq_true] at halany
      obtain ⟨s, hsmem, hsid⟩ := halany
      exact ⟨s, hsmem, by simpa using hsid⟩
    · intro ar har
      simp only [purgeOrphanArtists] at har ⊢
      obtain ⟨harmem, harany⟩ := List.mem_filter.mp har
      rw [List.any_eq_true] at harany
      obtain ⟨al, halmem, halid⟩ := harany
      exact ⟨al, halmem, by simpa using halid⟩
    · simp only [purgeOrphanArtists, purgeOrphanAlbums]
      omega

/-- C8: when `OrphanScan` runs with a non-empty base path and completes
without error, every Art, Song and Folder record left in the store lies
under the base path (records outside it are deleted unconditionally,
whether or not their files exist), and the base-eviction phase deletes no
record lying under the base path. -/
theorem c8_base_eviction (fs : FS) (base sub : String) (halt : Nat → Bool)
    (db : DB)
    (hbase : base ≠ "")
    (herr : (orphanScan fs base sub halt db).err = none)
    (hndA : (db.arts.map (fun a => a.id)).Nodup)
    (hndS : (db.songs.map (fun s => s.id)).Nodup)
    (hndF : (db.folders.map (fun f => f.id)).Nodup) :
    (∀ a ∈ (orphanScan fs base sub halt db).db.arts,
      pathUnder base a.fileName = true) ∧
    (∀ s ∈ (orphanScan fs base sub halt db).db.songs,
      pathUnder base s.fileName = true) ∧
    (∀ f ∈ (orphanScan fs base sub halt db).db.folders,
      pathUnder base f.path = true) ∧
    (∀ a ∈ db.arts, pathUnder base a.fileName = true →
      a ∈ (baseEvict base db).1.arts) ∧
    (∀ s ∈ db.songs, pathUnder base s.fileName = true →
      s ∈ (baseEvict base db).1.songs) ∧
    (∀ f ∈ db.folders, pathUnder base f.path = true →
      f ∈ (baseEvict base db).1.folders) := by
  rcases hEA : evictArts (artNotInPath db base) db 0 with ⟨dbA, cA⟩
  rcases hES : evictSongs (songsNotInPath dbA base) dbA 0 with ⟨dbS, cS⟩
  rcases hEF : evictFolders (foldersNotInPath dbS base) dbS 0 with ⟨dbF, cF⟩
  have hBE : baseEvict base db = (dbF, cA, cS, cF) := by
    unfold baseEvict
    rw [hEA]
    dsimp only
    rw [hES]
    dsimp only
    rw [hEF]
  have specA := evictArts_spec (artNotInPath db base) db 0
  rw [hEA] at specA
  obtain ⟨memA, hsA, hfA, -, -, -, -⟩ := specA
  have specS := evictSongs_spec (songsNotInPath dbA base) dbA 0
  rw [hES] at specS
  obtain ⟨memS, haS, hfS, -, -, -, -⟩ := specS
  have specF := evictFolders_spec (foldersNotInPath dbS base) dbS 0
  rw [hEF] at specF
  obtain ⟨memF, haF, hsF, -, -, -, -⟩ := specF
  dsimp only at memA hsA hfA memS haS hfS memF haF hsF
  -- membership in the evicted store, phrased against the original store
  have hmemArts : ∀ x, x ∈ dbF.arts ↔
      x ∈ db.arts ∧ ∀ a ∈ artNotInPath db base, x.id ≠ a.id := by
    intro x
    rw [haF, haS]
    exact memA x
  have hmemSongs : ∀ x, x ∈ dbF.songs ↔
      x ∈ db.songs ∧ ∀ a ∈ songsNotInPath dbA base, x.id ≠ a.id := by
    intro x
    rw [hsF]
    rw [memS x, hsA]
  have hmemFolders : ∀ x, x ∈ dbF.folders ↔
      x ∈ db.folders ∧ ∀ a ∈ foldersNotInPath dbS base, x.id ≠ a.id := by
    intro x
    rw [memF x, hfS, hfA]
  have hSsongs : dbA.songs = db.songs := hsA
  have hSfolders : dbS.folders = db.folders := hfS.trans hfA
  -- the frame half: records under the base survive eviction
  have hframeA : ∀ a ∈ db.arts, pathUnder base a.fileName = true →
      a ∈ dbF.arts := by
    intro a ha hunder
    rw [hmemArts a]
    refine ⟨ha, ?_⟩
    intro x hx hcon
    obtain ⟨hxdb, hxnot⟩ := List.mem_filter.mp hx
    have hax : a = x := List.inj_on_of_nodup_map hndA ha hxdb hcon
    have hxu : pathUnder base x.fileName = true := hax ▸ hunder
    rw [hxu] at hxnot
    simp at hxnot
  have hframeS : ∀ s ∈ db.songs, pathUnder base s.fileName = true →
      s ∈ dbF.songs := by
    intro s hs hunder
    rw [hmemSongs s]
    refine ⟨hs, ?_⟩
    intro x hx hcon
    obtain ⟨hxdb, hxnot⟩ := List.mem_filter.mp hx
    rw [hSsongs] at hxdb
    have hax : s = x := List.inj_on_of_nodup_map hndS hs hxdb hcon
    have hxu : pathUnder base x.fileName = true := hax ▸ hunder
    rw [hxu] at hxnot
    simp at hxnot
  have hframeF : ∀ f ∈ db.folders, pathUnder base f.path = true →
      f ∈ dbF.folders := by
    intro f hf hunder
    rw [hmemFolders f]
    refine ⟨hf, ?_⟩
    intro x hx hcon
    obtain ⟨hxdb, hxnot⟩ := List.mem_filter.mp hx
    rw [hSfolders] at hxdb
    have hax : f = x := List.inj_on_of_nodup_map hndF hf hxdb hcon
    have hxu : pathUnder base x.path = true := hax ▸ hunder
    rw [hxu] at hxnot
    simp at hxnot
  -- everything left in the evicted store lies under the base
  have hunderA : ∀ a ∈ dbF.arts, pathUnder base a.fileName = true := by
    intro a ha
    obtain ⟨hadb, hids⟩ := (hmemArts a).mp ha
    by_contra hnu
    have hnu' : pathUnder base a.fileName = false := by
      cases h : pathUnder base a.fileName
      · rfl
      · exact absurd h hnu
    have hmem : a ∈ artNotInPath db base :=
      List.mem_filter.mpr ⟨hadb, by simp [hnu']⟩
    exact hids a hmem rfl
  have hunderS : ∀ s ∈ dbF.songs, pathUnder base s.fileName = true := by
    intro s hs
    obtain ⟨hsdb, hids⟩ := (hmemSongs s).mp hs
    by_contra hnu
    have hnu' : pathUnder base s.fileName = false := by
      cases h : pathUnder base s.fileName
      · rfl
      · exact absurd h hnu
    have hmem : s ∈ songsNotInPath dbA base :=
      List.mem_filter.mpr ⟨hSsongs ▸ hsdb, by simp [hnu']⟩
    exact hids s hmem rfl
  have hunderF : ∀ f ∈ dbF.folders, pathUnder base f.path = true := by
    intro f hf
    obtain ⟨hfdb, hids⟩ := (hmemFolders f).mp hf
    by_contra hnu
    have hnu' : pathUnder base f.path = false := by
      cases h : pathUnder base f.path
      · rfl
      · exact absurd h hnu
    have hmem : f ∈ foldersNotInPath dbS base :=
      List.mem_filter.mpr ⟨hSfolders ▸ hfdb, by simp [hnu']⟩
    exact hids f hmem rfl
  -- run the remaining phases
  rcases hA : checkArts fs (artInPath dbF (if sub = "" then base else sub)) dbF cA
    with ⟨db1, artC⟩
  rcases hS2 : checkSongs fs (songsInPath db1 (if sub = "" then base else sub)) db1 cS
    with ⟨db2, songC⟩
  rcases hF2 : checkFolders fs (foldersInPath db2 (if sub = "" then base else sub)) db2 cF
    with ⟨db3, folderC, rF⟩
  have hrun : orphanScan fs base sub halt db =
      (match checkFolders fs
          (foldersInPath db2 (if sub = "" then base else sub)) db2 cF with
       | (db3, _, some er) => { count := 0, err := some er, db := db3 }
       | (db3, folderC, none) =>
         let pa := purgeOrphanAlbums db3
         let pr := purgeOrphanArtists pa.2
         { count := artC + pr.1 + pa.1 + songC + folderC, err := none,
           db := pr.2 }) := by
    unfold orphanScan
    rw [if_pos hbase, hBE]
    dsimp only
    rw [hA]
    dsimp only
    rw [hS2]
  rw [hF2] at hrun
  cases rF with
  | some er =>
    rw [hrun] at herr
    simp at herr
  | none =>
    dsimp only at hrun
    have spec1 := checkArts_spec fs
      (artInPath dbF (if sub = "" then base else sub)) dbF cA
    rw [hA] at spec1
    obtain ⟨mem1, hs1, hf1, -, -, -⟩ := spec1
    have spec2 := checkSongs_spec fs
      (songsInPath db1 (if sub = "" then base else sub)) db1 cS
    rw [hS2] at spec2
    obtain ⟨mem2, ha2, hf2, -, -, -⟩ := spec2
    have spec3 := checkFolders_spec fs
      (foldersInPath db2 (if sub = "" then base else sub)) db2 cF
    rw [hF2] at spec3
    obtain ⟨mem3, ha3, hs3, -, -, -⟩ := spec3
    dsimp only at mem1 hs1 hf1 mem2 ha2 hf2 mem3 ha3 hs3
    have hfinal : (orphanScan fs base sub halt db).db.arts = db3.arts ∧
        (orphanScan fs base sub halt db).db.songs = db3.songs ∧
        (orphanScan fs base sub halt db).db.folders = db3.folders := by
      rw [hrun]
      simp [purgeOrphanArtists, purgeOrphanAlbums]
    refine ⟨?_, ?_, ?_, ?_, ?_, ?_⟩
    · intro a ha
      rw [hfinal.1] at ha
      have h1 : a ∈ db2.arts := ha3 ▸ ha
      have h2 : a ∈ db1.arts := ha2 ▸ h1
      exact hunderA a (mem1 a h2)
    · intro s hs
      rw [hfinal.2.1] at hs
      have h1 : s ∈ db2.songs := hs3 ▸ hs
      have h2 : s ∈ db1.songs := mem2 s h1
      exact hunderS s (hs1 ▸ h2)
    · intro f hf
      rw [hfinal.2.2] at hf
      have h1 : f ∈ db2.folders := mem3 f hf
      have h2 : f ∈ db1.folders := hf2 ▸ h1
      exact hunderF f (hf1 ▸ h2)
    · intro a ha hu
      rw [hBE]
      exact hframeA a ha hu
    · intro s hs hu
      rw [hBE]
      exact hframeS s hs hu
    · intro f hf hu
      rw [hBE]
      exact hframeF f hf hu

/-- C2 (code half of the divergence): `OrphanScan`'s result is completely
independent of the value of the halt flag, for any schedule of the
cancellation goroutine — the body installs the flag but never reads it, so
a cancellation signalled at any time never halts the scan, contradicting
the claim that every phase and candidate iteration checks the flag. -/
theorem c2_orphanscan_ignores_halt (fs : FS) (base sub : String)
    (h₁ h₂ : Nat → Bool) (db : DB) :
    orphanScan fs base sub h₁ db = orphanScan fs base sub h₂ db := rfl

/-- C1 counterexample: with a store whose art save fails with an error that
is not the not-found signal, `MediaScan` over a library containing one new
cover file returns no error at all (the save error is logged and swallowed,
the art is silently not indexed), refuting the claim that any store save
error aborts the scan and is returned unchanged. -/
theorem c1_counterexample :
    badArtOps.artSave emptyDB
        { id := 0, fileName := "/m/c.jpg", fileSize := 7, lastModified := 5 }
      = .error (.other "art save failed") ∧
    (mediaScan badArtOps cfgStd fsArtOnly emptyDB).err = none ∧
    (mediaScan badArtOps cfgStd fsArtOnly emptyDB).db.arts = [] := by
  refine ⟨rfl, ?_, ?_⟩ <;> decide

/-- C6 counterexample: `/a` contains zero files (directly and transitively:
its only entry is the empty directory `/a/b`), yet `MediaScan` creates a
Folder record for `/a` and increments the folder counter, refuting the
claim that no Folder record is created for transitively empty
directories. -/
theorem c6_counterexample :
    (mediaScan honestOps cfgStd fsNested emptyDB).err = none ∧
    (mediaScan honestOps cfgStd fsNested emptyDB).walk.folderCount = 1 ∧
    (mediaScan honestOps cfgStd fsNested emptyDB).db.folders
      = [{ id := 1, path := "/a", title := "a", parentID := 0 }] := by
  refine ⟨?_, ?_, ?_⟩ <;> decide

/-- C7 counterexample: a zero-size audio file whose tag extraction fails
aborts the scan with an error (tag extraction runs before the size check),
refuting the claim that every zero-size file is silently skipped and the
scan continues without error. -/
theorem c7_counterexample :
    (mediaScan honestOps cfgStd fsZeroBad emptyDB).err
      = some (.tagErr "/m/z.mp3") := by decide

/-! ### Witnesses -/

/-- Witness for the amended C1 at a concrete input: a store whose folder
save fails aborts the scan with that error returned unchanged. -/
theorem c1_amended_witness :
    fsArtOnly.entries = entArtC :: [] ∧
    cfgStd.halt 0 = false ∧
    entArtC.infoNone = false ∧
    badFolderOps.folderLoad emptyDB
      { id := 0, path := folderPathOf entArtC, title := "", parentID := 0 }
      = .error .noRows ∧
    fsArtOnly.readDir (folderPathOf entArtC) = .ok ["c.jpg"] ∧
    (["c.jpg"] : List String) ≠ [] ∧
    badFolderOps.folderLoad emptyDB
      { id := 0, path := parentPathOf entArtC, title := "", parentID := 0 }
      = .error .noRows ∧
    badFolderOps.folderSave emptyDB
      { id := 0, path := folderPathOf entArtC,
        title := pathBase (folderPathOf entArtC), parentID := 0 }
      = .error (.other "folder save failed") ∧
    mediaScan badFolderOps cfgStd fsArtOnly emptyDB =
      { count := 0, err := some (.store (.other "folder save failed")),
        db := emptyDB, walk := initialScanState emptyDB } :=
  ⟨by decide, rfl, rfl, rfl, rfl, by decide, rfl, rfl,
   c1_amended_folder_save_abort badFolderOps cfgStd fsArtOnly emptyDB entArtC
     [] ["c.jpg"] (.other "folder save failed") (by decide) rfl rfl rfl
     rfl (by decide) rfl rfl⟩

/-- Witness for C3 at a concrete input: rescanning `fsA` over the store the
first scan produced changes nothing. -/
theorem c3_witness :
    (∀ k, cfgStd.halt k = false) ∧
    (∀ e ∈ fsA.entries, reflectsEntry cfgStd fsA dbA e = true) ∧
    ((mediaScan honestOps cfgStd fsA dbA).count = 0 ∧
     (mediaScan honestOps cfgStd fsA dbA).err = none ∧
     (mediaScan honestOps cfgStd fsA dbA).db = dbA) :=
  ⟨fun _ => rfl, by decide,
   c3_rescan_no_changes cfgStd fsA dbA (fun _ => rfl) (by decide)⟩

/-- Witness for C4 at a concrete input: revisiting `/m/a.mp3` with a newer
modification time updates the stored song in place under its old ID and
bumps the update counter by one. -/
theorem c4_witness :
    cfgStd.halt 0 = false ∧ entSongNew.infoNone = false ∧
    cfgStd.artSet entSongNew.ext = false ∧
    cfgStd.mediaSet entSongNew.ext = true ∧
    entSongNew.tag = some meta1 ∧ entSongNew.size ≠ 0 ∧
    cfgStd.fileTypeMap entSongNew.ext = some 1 ∧
    folderStepUse fsA (initialScanState dbA) entSongNew = true ∧
    findSong (initialScanState dbA).db entSongNew.path = some songA ∧
    (∃ st', walkVisit honestOps cfgStd fsA 0 entSongNew (initialScanState dbA)
        = (st', none) ∧
      (if songA.lastModified < entSongNew.modTime then
        st'.songUpdateCount = (initialScanState dbA).songUpdateCount + 1 ∧
        ∃ s', s'.id = songA.id ∧ s'.fileName = entSongNew.path ∧
          s'.lastModified = entSongNew.modTime ∧
          st'.db.songs = (initialScanState dbA).db.songs.map
            (fun t => if t.id == songA.id then s' else t)
      else st'.songUpdateCount = (initialScanState dbA).songUpdateCount ∧
        st'.db.songs = (initialScanState dbA).db.songs)) :=
  ⟨rfl, rfl, by decide, by decide, rfl, by decide, by decide, by decide,
   by decide,
   c4_song_update_in_place cfgStd fsA 0 entSongNew (initialScanState dbA)
     meta1 1 songA rfl rfl (by decide) (by decide) rfl (by decide) (by decide)
     (by decide) (by decide)⟩

/-- Witness for C5 at a concrete input: after scanning `fsA` from the empty
store, the indexed song carries the recorded pair's art ID. -/
theorem c5_witness :
    ((mediaScan honestOps cfgStd fsA emptyDB).walk.db.songs.map
      (fun s => s.id)).Nodup ∧
    (mediaScan honestOps cfgStd fsA emptyDB).err = none ∧
    pairA ∈ (mediaScan honestOps cfgStd fsA emptyDB).walk.artFiles ∧
    lastArtFor pairA.folderID (mediaScan honestOps cfgStd fsA emptyDB).walk.artFiles
      = some pairA.artID ∧
    songA ∈ (mediaScan honestOps cfgStd fsA emptyDB).db.songs ∧
    songA.folderID = pairA.folderID ∧
    songA.artID = pairA.artID :=
  ⟨by decide, by decide, by decide, by decide, by decide, by decide,
   c5_art_association cfgStd fsA emptyDB pairA songA (by decide) (by decide)
     (by decide) (by decide) (by decide) (by decide)⟩

/-- Witness for the amended C6 at a concrete input: the empty directory
`/a/b` is skipped without creating a record. -/
theorem c6_amended_witness :
    cfgStd.halt 0 = false ∧ entDirB.infoNone = false ∧ entDirB.isDir = true ∧
    (initialScanState emptyDB).folderCache.lookup entDirB.path = none ∧
    findFolder (initialScanState emptyDB).db entDirB.path = none ∧
    fsNested.readDir entDirB.path = .ok [] ∧
    walkVisit honestOps cfgStd fsNested 0 entDirB (initialScanState emptyDB)
      = (initialScanState emptyDB, none) :=
  ⟨rfl, rfl, rfl, rfl, by decide, rfl,
   c6_amended_empty_dir_skipped cfgStd fsNested 0 entDirB
     (initialScanState emptyDB) rfl rfl rfl rfl (by decide) rfl⟩

/-- Witness for the amended C7 at a concrete input: a zero-size art file is
skipped silently and creates no record. -/
theorem c7_amended_witness :
    cfgStd.halt 0 = false ∧ entZeroArt.infoNone = false ∧
    entZeroArt.size = 0 ∧
    folderStepOk fsZeroBad (initialScanState emptyDB) entZeroArt = true ∧
    ((walkVisit honestOps cfgStd fsZeroBad 0 entZeroArt
        (initialScanState emptyDB)).1.db.songs
      = (initialScanState emptyDB).db.songs ∧
    (walkVisit honestOps cfgStd fsZeroBad 0 entZeroArt
        (initialScanState emptyDB)).1.db.arts
      = (initialScanState emptyDB).db.arts ∧
    ((cfgStd.artSet entZeroArt.ext = true ∨ cfgStd.mediaSet entZeroArt.ext = false ∨
        entZeroArt.tag.isSome = true) →
      (walkVisit honestOps cfgStd fsZeroBad 0 entZeroArt
        (initialScanState emptyDB)).2 = none)) :=
  ⟨rfl, rfl, rfl, by decide,
   c7_amended_zero_size cfgStd fsZeroBad 0 entZeroArt (initialScanState emptyDB)
     rfl rfl rfl (by decide)⟩

/-- Witness for C8 at a concrete input: an orphan scan of the indexed
library with base `/m` leaves only records under `/m` and evicts nothing
under it. -/
theorem c8_witness :
    ("/m" : String) ≠ "" ∧
    (orphanScan fsGone "/m" "" (fun _ => false) dbA).err = none ∧
    (dbA.arts.map (fun a => a.id)).Nodup ∧
    (dbA.songs.map (fun s => s.id)).Nodup ∧
    (dbA.folders.map (fun f => f.id)).Nodup ∧
    ((∀ a ∈ (orphanScan fsGone "/m" "" (fun _ => false) dbA).db.arts,
      pathUnder "/m" a.fileName = true) ∧
    (∀ s ∈ (orphanScan fsGone "/m" "" (fun _ => false) dbA).db.songs,
      pathUnder "/m" s.fileName = true) ∧
    (∀ f ∈ (orphanScan fsGone "/m" "" (fun _ => false) dbA).db.folders,
      pathUnder "/m" f.path = true) ∧
    (∀ a ∈ dbA.arts, pathUnder "/m" a.fileName = true →
      a ∈ (baseEvict "/m" dbA).1.arts) ∧
    (∀ s ∈ dbA.songs, pathUnder "/m" s.fileName = true →
      s ∈ (baseEvict "/m" dbA).1.songs) ∧
    (∀ f ∈ dbA.folders, pathUnder "/m" f.path = true →
      f ∈ (baseEvict "/m" dbA).1.folders)) :=
  ⟨by decide, by decide, by decide, by decide, by decide,
   c8_base_eviction fsGone "/m" "" (fun _ => false) dbA (by decide) (by decide)
     (by decide) (by decide) (by decide)⟩

/-- Witness for C9 at a concrete input: the orphan scan that purges the
whole indexed library leaves no orphan album or artist and counts every
deletion. -/
theorem c9_witness :
    (orphanScan fsGone "/m" "" (fun _ => false) dbA).err = none ∧
    ((∀ al ∈ (orphanScan fsGone "/m" "" (fun _ => false) dbA).db.albums,
      ∃ s ∈ (orphanScan fsGone "/m" "" (fun _ => false) dbA).db.songs,
        s.albumID = al.id) ∧
    (∀ ar ∈ (orphanScan fsGone "/m" "" (fun _ => false) dbA).db.artists,
      ∃ al ∈ (orphanScan fsGone "/m" "" (fun _ => false) dbA).db.albums,
        al.artistID = ar.id) ∧
    (orphanScan fsGone "/m" "" (fun _ => false) dbA).count + dbA.deletes
      = (orphanScan fsGone "/m" "" (fun _ => false) dbA).db.deletes) :=
  ⟨by decide,
   c9_cascading_purge fsGone "/m" "" (fun _ => false) dbA (by decide)⟩

/-- Witness for C10 at a concrete input: scanning `fsA` from the empty
store records only freshly saved art pairs, and songs of folders without a
recorded pair pass through the deferred pass unchanged. -/
theorem c10_witness :
    ((mediaScan honestOps cfgStd fsA emptyDB).walk.db.songs.map
      (fun s => s.id)).Nodup ∧
    (mediaScan honestOps cfgStd fsA emptyDB).err = none ∧
    ((∀ p ∈ (mediaScan honestOps cfgStd fsA emptyDB).walk.artFiles,
      emptyDB.nextArtID ≤ p.artID) ∧
    (∀ s ∈ (mediaScan honestOps cfgStd fsA emptyDB).walk.db.songs,
      lastArtFor s.folderID (mediaScan honestOps cfgStd fsA emptyDB).walk.artFiles
        = none →
      s ∈ (mediaScan honestOps cfgStd fsA emptyDB).db.songs)) :=
  ⟨by decide, by decide,
   c10_art_pass_frame cfgStd fsA emptyDB (by decide) (by decide)⟩

end Wavepipe
